import Mathlib

/-!
# Verification of the goldilex retrieval controller and validation engine

This file gives a shallow embedding, in Lean 4, of the core of the goldilex
repository: the similarity scorer, the taxonomy navigator's path computation,
the authority retriever, the validation engine (citation verification,
rule-to-field mapping, constraint compliance, and their aggregation), and the
iterative generation loop of the API route.  The definitions are direct
transcriptions of the TypeScript source (`src/lib/controller.ts`,
`src/lib/validation.ts`, `src/app/api/generate/route.ts`); the theorems settle
the specification claims about them.

Modelling conventions:
* JavaScript strings are Lean `String`s; regex character classes (`\s`, `\w`,
  `\d`, `[A-Z]`, `[a-zA-Z]`) are modelled on the ASCII range, which covers all
  characters the source's patterns can match apart from exotic Unicode
  whitespace.
* The two citation-extraction regexes are implemented as explicit scanners
  with the same leftmost-match, greedy, `lastIndex`-advancing semantics as
  JavaScript `RegExp.exec` with the `g` flag.  (For these particular patterns
  greedy matching never needs to backtrack: every quantified piece is followed
  by a piece whose first character class is disjoint from the quantified one.)
* JavaScript numbers are modelled as exact rationals.  The cosine similarity
  involves `Math.sqrt`, so the embedding carries the *square* of the cosine
  (`computeSimilaritySq`, an exact rational) and characterises the real-valued
  similarity relationally via `IsSimilarity`: `IsSimilarity a b x` says that
  `x` is the (nonnegative) value the source's `computeSimilarity(a, b)`
  denotes in exact arithmetic.  All comparisons the source performs on
  similarity values transfer to their squares, since both sides are
  nonnegative.
* Loops whose termination is not structural (the regex scan loops, the
  parent-chain walk, the generation loop) take an explicit fuel argument large
  enough that the fuel is never exhausted on the inputs the source terminates
  on; this keeps every definition computable by the kernel.
-/

namespace Goldilex

/-! ## JavaScript character classes (ASCII range) -/

/-- JS regex `\s` (ASCII whitespace: space, tab, LF, VT, FF, CR). -/
def jsWhitespaceB (c : Char) : Bool :=
  c = ' ' || c = '\t' || c = '\n' || c = Char.ofNat 11 || c = Char.ofNat 12 || c = '\r'

/-- JS regex `[A-Z]`. -/
def isUpperB (c : Char) : Bool := 'A' ≤ c && c ≤ 'Z'

/-- JS regex `[a-z]`. -/
def isLowerB (c : Char) : Bool := 'a' ≤ c && c ≤ 'z'

/-- JS regex `[a-zA-Z]`. -/
def isAlphaB (c : Char) : Bool := isUpperB c || isLowerB c

/-- JS regex `\d`. -/
def isDigitB (c : Char) : Bool := '0' ≤ c && c ≤ '9'

/-- JS regex `\w` (`[A-Za-z0-9_]`). -/
def isWordCharB (c : Char) : Bool := isAlphaB c || isDigitB c || c = '_'

/-- JS `String.prototype.toLowerCase`, character-wise (ASCII). -/
def lowerStr (s : String) : String := String.mk (s.toList.map Char.toLower)

/-! ## JavaScript string primitives -/

/-- Worker for `jsSplit`: `acc` holds the (reversed) characters of the token
being built; `inRun` is true while we are inside a separator run that has
already emitted the preceding token.  Mirrors `String.prototype.split` on a
regex of the form `/[c]+/`: separator runs are maximal, a leading run yields a
leading `""` element and a trailing run a trailing `""` element. -/
def jsSplitGo (p : Char → Bool) : List Char → List Char → Bool → List String
  | [], acc, inRun => if inRun then [""] else [String.mk acc.reverse]
  | c :: cs, acc, inRun =>
    if inRun then
      if p c then jsSplitGo p cs [] true
      else jsSplitGo p cs [c] false
    else
      if p c then String.mk acc.reverse :: jsSplitGo p cs [] true
      else jsSplitGo p cs (c :: acc) false

/-- JS `s.split(/[c]+/)` for a character class `p` (e.g. `/\s+/`, `/[.!?]+/`).
On the empty string JS returns `[""]`, which this definition also does. -/
def jsSplit (p : Char → Bool) (s : String) : List String :=
  jsSplitGo p s.toList [] false

/-- JS `String.prototype.trim` (whitespace stripped from both ends). -/
def jsTrim (s : String) : String :=
  String.mk (((s.toList.dropWhile jsWhitespaceB).reverse.dropWhile jsWhitespaceB).reverse)

/-- JS `haystack.includes(needle)` (substring containment;
`includes("")` is `true`). -/
def strContains (haystack needle : String) : Bool :=
  haystack.toList.tails.any (fun t => needle.toList.isPrefixOf t)

/-! ## Data model (`src/types/bset.ts`) -/

/-- One knowledge-base authority (`BSetItem` in `src/types/bset.ts`).  Fields
not consulted by any of the embedded operations are omitted. -/
structure BSetItem where
  id : String := ""
  type : String := ""
  citation : Option String := none
  name : String := ""
  facts : Option String := none
  question : Option String := none
  holding : Option String := none
  rule_of_law : Option String := none
  rule : Option String := none
  notes : Option String := none
  taxonomy_path : List String := []
  deriving Repr, DecidableEq

/-- One node of the classification tree (`TaxonomyNode`). -/
structure TaxonomyNode where
  id : String
  title : String := ""
  parent_id : Option String := none
  deriving Repr, DecidableEq

/-- A content segment of a structured constraint (`ContentSegment`). -/
structure ContentSegment where
  text : Option String := none
  deriving Repr, DecidableEq

/-- Field `ConstraintObject.content` is `string | ContentSegment[]` in the source. -/
inductive ConstraintContent where
  | str (s : String)
  | segs (l : List ContentSegment)
  deriving Repr, DecidableEq

/-- One extracted constraint record (`ConstraintObject`). -/
structure ConstraintObject where
  id : String := ""
  path : List String := []
  note_type : String := ""
  content : ConstraintContent := ConstraintContent.str ""
  is_test_standard : Bool := false
  is_element_factor : Bool := false
  is_macro_fork : Bool := false
  deriving Repr, DecidableEq

/-- The per-query authorization unit (`AuthorizedContext`). -/
structure AuthorizedContext where
  reasoning_objects : List BSetItem := []
  constraint_objects : List ConstraintObject := []
  analytical_path : List String := []
  target_node : TaxonomyNode := { id := "" }
  deriving Repr, DecidableEq

/-- Status of a single validation check. -/
inductive CheckStatus where
  | PASS
  | FAIL
  | WARNING
  deriving Repr, DecidableEq

/-- Overall status of a validation report. -/
inductive OverallStatus where
  | PASSED
  | FAILED
  deriving Repr, DecidableEq

/-- Severity tier of a validation report. -/
inductive Severity where
  | MINOR
  | MAJOR
  | CRITICAL
  deriving Repr, DecidableEq

/-- Recommended action of a validation report. -/
inductive RecommendedAction where
  | CORRECT
  | REGENERATE
  | REJECT
  deriving Repr, DecidableEq

/-- Result of one verification rule (`ValidationCheck`).  The source stores
the raw similarity and threshold; the embedding stores their squares (see the
header comment), in the fields `best_match_similarity_sq` / `threshold_sq`. -/
structure ValidationCheck where
  check_type : String
  status : CheckStatus
  details : String := ""
  failed_assertion : Option String := none
  best_match_similarity_sq : Option ℚ := none
  threshold_sq : Option ℚ := none
  missing_element : Option String := none
  deriving Repr, DecidableEq

/-- Aggregate validation report (`ValidationResult`). -/
structure ValidationResult where
  overall_status : OverallStatus
  validation_checks : List ValidationCheck
  severity : Option Severity := none
  recommended_action : Option RecommendedAction := none
  deriving Repr, DecidableEq

/-! ## Similarity scorer (`computeCosineSimilarity` / `computeSimilarity`)

The source contains two textually identical copies of the bag-of-words cosine
similarity (`computeCosineSimilarity` in `controller.ts`, `computeSimilarity`
in `validation.ts`):

```
const words1 = text1.toLowerCase().split(/\s+/);
const words2 = text2.toLowerCase().split(/\s+/);
const allWords = Array.from(new Set([...words1, ...words2]));
const vector1 = allWords.map(word => words1.filter(w => w === word).length);
const vector2 = allWords.map(word => words2.filter(w => w === word).length);
const dotProduct = vector1.reduce((sum, val, i) => sum + val * vector2[i], 0);
const magnitude1 = Math.sqrt(vector1.reduce((sum, val) => sum + val * val, 0));
const magnitude2 = Math.sqrt(vector2.reduce((sum, val) => sum + val * val, 0));
if (magnitude1 === 0 || magnitude2 === 0) return 0;
return dotProduct / (magnitude1 * magnitude2);
```

The embedding computes the exact rational square of the returned value
(`computeSimilaritySq`); `IsSimilarity` then characterises the value itself.
-/

/-- Deduplication preserving first occurrence — `Array.from(new Set(l))`. -/
def dedupFirst : List String → List String :=
  go []
where
  go (seen : List String) : List String → List String
    | [] => []
    | c :: rest => if seen.contains c then go seen rest else c :: go (c :: seen) rest

/-- The token list of one similarity input:
`text.toLowerCase().split(/\s+/)`. -/
def simWords (t : String) : List String := jsSplit jsWhitespaceB (lowerStr t)

/-- The shared vocabulary `allWords = Array.from(new Set([...w1, ...w2]))`. -/
def allWords (w1 w2 : List String) : List String := dedupFirst (w1 ++ w2)

/-- The term-frequency vector of token list `ws` over vocabulary `vocab`
(`allWords.map(word => ws.filter(w => w === word).length)`). -/
def tfVector (vocab ws : List String) : List ℕ := vocab.map (fun w => ws.count w)

/-- The dot product `vector1.reduce((sum, val, i) => sum + val * vector2[i], 0)`. -/
def dotList : List ℕ → List ℕ → ℕ
  | [], _ => 0
  | _, [] => 0
  | a :: as_, b :: bs => a * b + dotList as_ bs

/-- The squared magnitude `vector.reduce((sum, val) => sum + val * val, 0)`. -/
def sumSq (l : List ℕ) : ℕ := (l.map (fun v => v * v)).sum

/-- The square of the value returned by the source's
`computeCosineSimilarity` / `computeSimilarity`, as an exact rational:
`dotProduct² / (magnitude1² * magnitude2²)`, and `0` when either magnitude
is zero (the source's guard). -/
def computeSimilaritySq (text1 text2 : String) : ℚ :=
  let words1 := simWords text1
  let words2 := simWords text2
  let vocab := allWords words1 words2
  let vector1 := tfVector vocab words1
  let vector2 := tfVector vocab words2
  let dot := dotList vector1 vector2
  let magSq1 := sumSq vector1
  let magSq2 := sumSq vector2
  if magSq1 = 0 ∨ magSq2 = 0 then 0
  else ((dot : ℚ) * dot) / ((magSq1 : ℚ) * (magSq2 : ℚ))

/-- Predicate `IsSimilarity a b x` holds when `x` is the value `computeSimilarity(a, b)`
denotes in exact real arithmetic: the similarity is `dot / (√m1 · √m2)` with a
nonnegative numerator, i.e. the unique nonnegative real whose square is
`computeSimilaritySq a b`. -/
def IsSimilarity (a b : String) (x : ℝ) : Prop :=
  0 ≤ x ∧ x ^ 2 = (computeSimilaritySq a b : ℝ)

/-! ## Citation normalization and extraction (`validation.ts`) -/

/-- Source `normalizeCitation`:
`citation.toLowerCase().replace(/[^\w\s]/g, '').replace(/\s+/g, ' ').trim()`.
Deleting the non-word, non-space characters, collapsing whitespace runs to a
single space and trimming is the same as joining the nonempty whitespace-split
tokens of the stripped string with single spaces. -/
def normalizeCitation (citation : String) : String :=
  let stripped :=
    String.mk ((lowerStr citation).toList.filter (fun c => isWordCharB c || jsWhitespaceB c))
  String.intercalate " " ((jsSplit jsWhitespaceB stripped).filter (fun t => t ≠ ""))

/-- Parse `[A-Z][a-zA-Z]+` at the head of `s` (greedy; at least two
characters).  Returns the matched characters and the rest. -/
def parseWord (s : List Char) : Option (List Char × List Char) :=
  match s with
  | [] => none
  | c :: cs =>
    if isUpperB c then
      let letters := cs.takeWhile isAlphaB
      if letters.isEmpty then none else some (c :: letters, cs.dropWhile isAlphaB)
    else none

/-- Parse `(?:\s+[A-Z][a-zA-Z]+)*` at the head of `s` (greedy).  `fuel` bounds
the recursion; each iteration consumes at least two characters, so
`fuel = s.length` always suffices.  Returns the matched characters and the
rest. -/
def parseGroupExt (fuel : Nat) (s : List Char) : List Char × List Char :=
  match fuel with
  | 0 => ([], s)
  | fuel' + 1 =>
    let ws := s.takeWhile jsWhitespaceB
    if ws.isEmpty then ([], s)
    else
      match parseWord (s.dropWhile jsWhitespaceB) with
      | none => ([], s)
      | some (w, rest) =>
        let (ext, rest') := parseGroupExt fuel' rest
        (ws ++ w ++ ext, rest')

/-- Parse one capture group `[A-Z][a-zA-Z]+(?:\s+[A-Z][a-zA-Z]+)*` (greedy). -/
def parseGroup (s : List Char) : Option (List Char × List Char) :=
  match parseWord s with
  | none => none
  | some (w, rest) =>
    let (ext, rest') := parseGroupExt rest.length rest
    some (w ++ ext, rest')

/-- Try pattern 1,
`([A-Z][a-zA-Z]+(?:\s+[A-Z][a-zA-Z]+)*)\s+v\.\s+([A-Z][a-zA-Z]+(?:\s+[A-Z][a-zA-Z]+)*)`,
anchored at the head of `s`.  Returns the two captures and the rest of the
input after the match.  Greedy matching without backtracking is faithful here:
each quantified sub-pattern is followed by one whose first character class
(`\s`, `v`, letter) is disjoint from the class the quantifier repeats. -/
def attempt1 (s : List Char) : Option (String × String × List Char) :=
  match parseGroup s with
  | none => none
  | some (g1, r1) =>
    let ws1 := r1.takeWhile jsWhitespaceB
    let r2 := r1.dropWhile jsWhitespaceB
    if ws1.isEmpty then none
    else
      match r2 with
      | 'v' :: '.' :: r3 =>
        let ws2 := r3.takeWhile jsWhitespaceB
        let r4 := r3.dropWhile jsWhitespaceB
        if ws2.isEmpty then none
        else
          match parseGroup r4 with
          | none => none
          | some (g2, r5) => some (String.mk g1, String.mk g2, r5)
      | _ => none

/-- Scan loop for pattern 1 with JS `exec`/`g` semantics: try each position
from left to right; after a successful match continue at the match end.  The
pushed citation is `` `${match[1]} v. ${match[2]}` ``.  `fuel ≥ s.length + 1`
suffices since every step consumes at least one character. -/
def scan1 (fuel : Nat) (s : List Char) : List String :=
  match fuel with
  | 0 => []
  | fuel' + 1 =>
    match s with
    | [] => []
    | _ :: cs =>
      match attempt1 s with
      | some (g1, g2, rest) => (g1 ++ " v. " ++ g2) :: scan1 fuel' rest
      | none => scan1 fuel' cs

/-- Try pattern 2, `\d+\s+U\.S\.\s+\d+`, anchored at the head of `s`.
Returns the full matched span (`match[0]`) and the rest. -/
def attempt2 (s : List Char) : Option (List Char × List Char) :=
  let d1 := s.takeWhile isDigitB
  let r1 := s.dropWhile isDigitB
  if d1.isEmpty then none
  else
    let ws1 := r1.takeWhile jsWhitespaceB
    let r2 := r1.dropWhile jsWhitespaceB
    if ws1.isEmpty then none
    else
      match r2 with
      | 'U' :: '.' :: 'S' :: '.' :: r3 =>
        let ws2 := r3.takeWhile jsWhitespaceB
        let r4 := r3.dropWhile jsWhitespaceB
        if ws2.isEmpty then none
        else
          let d2 := r4.takeWhile isDigitB
          let r5 := r4.dropWhile isDigitB
          if d2.isEmpty then none
          else some (d1 ++ ws1 ++ ['U', '.', 'S', '.'] ++ ws2 ++ d2, r5)
      | _ => none

/-- Scan loop for pattern 2 (same `exec`/`g` semantics as `scan1`). -/
def scan2 (fuel : Nat) (s : List Char) : List String :=
  match fuel with
  | 0 => []
  | fuel' + 1 =>
    match s with
    | [] => []
    | _ :: cs =>
      match attempt2 s with
      | some (m, rest) => String.mk m :: scan2 fuel' rest
      | none => scan2 fuel' cs

/-- Source `extractCitations` (`validation.ts` lines 420-437): collect the pattern-1
matches (as `` `${m[1]} v. ${m[2]}` ``), then the pattern-2 matches (verbatim
spans), then remove duplicates with `[...new Set(citations)]` (first
occurrences kept, order preserved). -/
def extractCitations (text : String) : List String :=
  let cs := text.toList
  dedupFirst (scan1 (cs.length + 1) cs ++ scan2 (cs.length + 1) cs)

/-! ## Authority retriever (`controller.ts`) -/

/-- Source `pathsMatch` (`controller.ts` lines 150-153):
`path1.length === path2.length && path1.every((id, idx) => id === path2[idx])`
(the index access is total because of the length guard, so pairing the lists
is equivalent). -/
def pathsMatch (path1 path2 : List String) : Bool :=
  path1.length == path2.length && (path1.zip path2).all (fun ab => ab.1 == ab.2)

/-- Source `isAnalyticalPathPrefixOfItem` (`controller.ts` lines 160-163):
false when the analytical path is longer than the item path, else
`analyticalPath.every((id, idx) => id === itemPath[idx])`. -/
def isAnalyticalPathPrefixOfItem (analyticalPath itemPath : List String) : Bool :=
  if analyticalPath.length > itemPath.length then false
  else (analyticalPath.zip itemPath).all (fun ab => ab.1 == ab.2)

/-- The retrieval loop of `retrieveReasoningObjects` (`controller.ts` lines
127-141): walk the items in order, pushing exact matches onto one list and
prefix (inherited) matches onto another. -/
def retrieveAux (analyticalPath : List String) :
    List BSetItem → List BSetItem × List BSetItem
  | [] => ([], [])
  | item :: rest =>
    let tail := retrieveAux analyticalPath rest
    if pathsMatch item.taxonomy_path analyticalPath then (item :: tail.1, tail.2)
    else if isAnalyticalPathPrefixOfItem analyticalPath item.taxonomy_path then
      (tail.1, item :: tail.2)
    else tail

/-- Source `retrieveReasoningObjects` (`controller.ts` lines 120-145):
deterministic ordering, exact matches first, then inherited matches. -/
def retrieveReasoningObjects (analyticalPath : List String) (items : List BSetItem) :
    List BSetItem :=
  (retrieveAux analyticalPath items).1 ++ (retrieveAux analyticalPath items).2

/-! ## Analytical path computation (`controller.ts`) -/

/-- The `while (currentNode)` loop of `computeAnalyticalPath` (`controller.ts`
lines 100-106).  `acc` is the path built so far (`path.unshift(id)` prepends).
The loop exits when the current node has no (or an empty, i.e. falsy) parent
id, or when `taxonomy.find(...)` comes up empty — in the latter case the
partially built path is returned with no error.  `fuel` bounds the walk; on an
acyclic taxonomy `taxonomy.length + 1` steps always suffice (on a cyclic one
the source loops forever, which the embedding cuts off). -/
def capGo (taxonomy : List TaxonomyNode) : Nat → TaxonomyNode → List String → List String
  | fuel, cur, acc =>
    let acc' := cur.id :: acc
    match cur.parent_id with
    | none => acc'
    | some pid =>
      if pid = "" then acc'
      else
        match taxonomy.find? (fun n => n.id == pid) with
        | none => acc'
        | some parent =>
          match fuel with
          | 0 => acc'
          | fuel' + 1 => capGo taxonomy fuel' parent acc'

/-- Source `computeAnalyticalPath` (`controller.ts` lines 92-109): build the
root-to-target path by walking parent links from the target. -/
def computeAnalyticalPath (targetNode : TaxonomyNode) (taxonomy : List TaxonomyNode) :
    List String :=
  capGo taxonomy (taxonomy.length + 1) targetNode []

/-! ## Citation verification (`validation.ts` lines 443-481) -/

/-- The per-item authorization test inside `verifyCitations`:

```
const objName = normalizeCitation(obj.name || '');
const objCitation = normalizeCitation(obj.citation || '');
return normalized === objName || normalized === objCitation ||
       normalized.includes(objName) || objName.includes(normalized);
```

Note: containment is tested against the *name* field only; the citation field
is compared by equality alone. -/
def citationMatchesObj (normalized : String) (obj : BSetItem) : Bool :=
  let objName := normalizeCitation obj.name
  let objCitation := normalizeCitation (obj.citation.getD "")
  normalized == objName || normalized == objCitation ||
    strContains normalized objName || strContains objName normalized

/-- Source `verifyCitations`: extract citations, collect the unauthorized
ones, FAIL when any exist. -/
def verifyCitations (generatedText : String) (authorizedObjects : List BSetItem) :
    ValidationCheck :=
  let extractedCitations := extractCitations generatedText
  let unauthorizedCitations :=
    extractedCitations.filter
      (fun citation => !(authorizedObjects.any (citationMatchesObj (normalizeCitation citation))))
  if unauthorizedCitations.isEmpty then
    { check_type := "citation_verification"
      status := CheckStatus.PASS
      details := "All " ++ toString extractedCitations.length ++
        " citations matched authorized objects" }
  else
    { check_type := "citation_verification"
      status := CheckStatus.FAIL
      details := "Found " ++ toString unauthorizedCitations.length ++
        " unauthorized citation(s): " ++ String.intercalate ", " unauthorizedCitations
      failed_assertion := unauthorizedCitations.head? }

/-! ## Rule-to-field mapping (`validation.ts` lines 497-592) -/

/-- The fixed normative keyword list of `extractRuleStatements`. -/
def normativeKeywords : List String :=
  ["rule is", "court held", "standard requires", "test is", "must", "shall",
   "requires", "prohibits", "allows", "permits"]

/-- Source `extractRuleStatements`: split on `/[.!?]+/`, keep (trimmed) the
sentences whose lower-casing contains a normative keyword. -/
def extractRuleStatements (text : String) : List String :=
  let sentences := jsSplit (fun c => c = '.' || c = '!' || c = '?') text
  (sentences.filter
      (fun sentence => normativeKeywords.any (fun kw => strContains (lowerStr sentence) kw))).map
    jsTrim

/-- The authorized rule text of one item:
`obj.rule_of_law || obj.rule || obj.holding || ''` (JS falsy chaining, so an
empty-string field falls through to the next). -/
def getAuthorizedRule (obj : BSetItem) : String :=
  let a := obj.rule_of_law.getD ""
  if a ≠ "" then a
  else
    let b := obj.rule.getD ""
    if b ≠ "" then b
    else obj.holding.getD ""

/-- The inner loop of `verifyRuleMappings`: the maximum (squared) similarity
of `rule` against the authorized rule fields, skipping items whose field chain
is empty (`if (!authorizedRule) continue`), starting from `0`. -/
def maxSimSq (rule : String) (authorizedObjects : List BSetItem) : ℚ :=
  authorizedObjects.foldl
    (fun m obj =>
      let authorizedRule := getAuthorizedRule obj
      if authorizedRule = "" then m else max m (computeSimilaritySq rule authorizedRule))
    0

/-- The squared similarity threshold: the source's
`SIMILARITY_THRESHOLD = 0.65`, squared (`0.65² = 169/400`). -/
def SIMILARITY_THRESHOLD_SQ : ℚ := (13 / 20 : ℚ) ^ 2

/-- The outer loop of `verifyRuleMappings`: accumulate the unmapped rules (in
order) and `lowestSimilarity` (squared; started at `1.0`, lowered at each
failing rule by that rule's best match). -/
def ruleLoop (authorizedObjects : List BSetItem) :
    List String × ℚ → List String → List String × ℚ
  | acc, [] => acc
  | acc, rule :: rest =>
    let m := maxSimSq rule authorizedObjects
    if m < SIMILARITY_THRESHOLD_SQ then
      ruleLoop authorizedObjects (acc.1 ++ [rule], min acc.2 m) rest
    else ruleLoop authorizedObjects acc rest

/-- Source `verifyRuleMappings` (`validation.ts` lines 548-592). -/
def verifyRuleMappings (generatedText : String) (authorizedObjects : List BSetItem) :
    ValidationCheck :=
  let extractedRules := extractRuleStatements generatedText
  let res := ruleLoop authorizedObjects ([], 1) extractedRules
  let unmappedRules := res.1
  let lowestSimilarity := res.2
  if unmappedRules.isEmpty then
    { check_type := "rule_to_field_mapping"
      status := CheckStatus.PASS
      details := "All " ++ toString extractedRules.length ++
        " rule statements mapped to authorized fields" }
  else
    { check_type := "rule_to_field_mapping"
      status := CheckStatus.FAIL
      details := toString unmappedRules.length ++
        " rule statement(s) did not map to authorized rule fields"
      failed_assertion := unmappedRules.head?
      best_match_similarity_sq := some lowestSimilarity
      threshold_sq := some SIMILARITY_THRESHOLD_SQ }

/-! ## Constraint compliance (`validation.ts` lines 598-673) -/

/-- The content string of a constraint:
`typeof content === 'string' ? content : content.map(c => c.text || '').join(' ')`. -/
def constraintContentStr (c : ConstraintObject) : String :=
  match c.content with
  | ConstraintContent.str s => s
  | ConstraintContent.segs l => String.intercalate " " (l.map (fun seg => seg.text.getD ""))

/-- The keyword extraction both constraint loops perform:
`content.toLowerCase().replace(/[^\w\s]/g, ' ').split(/\s+/).filter(w => w.length > 3)`. -/
def significantWords (content : String) : List String :=
  let replaced :=
    String.mk ((lowerStr content).toList.map (fun c => if isWordCharB c || jsWhitespaceB c then c else ' '))
  (jsSplit jsWhitespaceB replaced).filter (fun w => w.length > 3)

/-- One required-element constraint is missing from the text when it has at
least one significant word and none of them occurs in the lower-cased text. -/
def elementMissingB (textLower : String) (c : ConstraintObject) : Bool :=
  let keywords := significantWords (constraintContentStr c)
  !(keywords.any (fun kw => strContains textLower kw)) && !keywords.isEmpty

/-- One required-test constraint is unmentioned when none of its first three
significant words occurs in the lower-cased text (and it has at least one). -/
def testMissingB (textLower : String) (c : ConstraintObject) : Bool :=
  let keywords := significantWords (constraintContentStr c)
  !((keywords.take 3).any (fun kw => strContains textLower kw)) && !keywords.isEmpty

/-- Source `verifyConstraintCompliance` (`validation.ts` lines 598-673):
FAIL when a required element is missing (reporting the first), otherwise
WARNING when a required test is unmentioned, otherwise PASS. -/
def verifyConstraintCompliance (generatedText : String) (context : AuthorizedContext) :
    ValidationCheck :=
  let textLower := lowerStr generatedText
  let elementConstraints := context.constraint_objects.filter (fun c => c.is_element_factor)
  let missingElements :=
    (elementConstraints.filter (elementMissingB textLower)).map constraintContentStr
  if !missingElements.isEmpty then
    { check_type := "constraint_compliance"
      status := CheckStatus.FAIL
      details := toString missingElements.length ++ " required element(s) not addressed"
      missing_element := missingElements.head? }
  else
    let testConstraints := context.constraint_objects.filter (fun c => c.is_test_standard)
    let missingTests :=
      (testConstraints.filter (testMissingB textLower)).map constraintContentStr
    if !missingTests.isEmpty then
      { check_type := "constraint_compliance"
        status := CheckStatus.WARNING
        details := toString missingTests.length ++
          " required test(s) may not be fully addressed" }
    else
      { check_type := "constraint_compliance"
        status := CheckStatus.PASS
        details := "All required elements and tests appear to be addressed" }

/-! ## Validation aggregation (`validation.ts` lines 370-415, 678-680) -/

/-- Source `isCriticalCheck`: only citation verification is critical. -/
def isCriticalCheck (checkType : String) : Bool :=
  checkType == "citation_verification"

/-- Source `validateGeneratedText`: run the three checks, then derive overall
status, severity and recommended action. -/
def validateGeneratedText (generatedText : String) (context : AuthorizedContext) :
    ValidationResult :=
  let citationCheck := verifyCitations generatedText context.reasoning_objects
  let ruleCheck := verifyRuleMappings generatedText context.reasoning_objects
  let constraintCheck := verifyConstraintCompliance generatedText context
  let checks := [citationCheck, ruleCheck, constraintCheck]
  let hasCriticalFailure :=
    checks.any (fun c => c.status == CheckStatus.FAIL && isCriticalCheck c.check_type)
  let hasMajorFailure := checks.any (fun c => c.status == CheckStatus.FAIL)
  let hasWarning := checks.any (fun c => c.status == CheckStatus.WARNING)
  let severity : Option Severity :=
    if hasCriticalFailure then some Severity.CRITICAL
    else if hasMajorFailure then some Severity.MAJOR
    else if hasWarning then some Severity.MINOR
    else none
  let recommendedAction : Option RecommendedAction :=
    if hasCriticalFailure then some RecommendedAction.REJECT
    else if hasMajorFailure then some RecommendedAction.REGENERATE
    else if hasWarning then some RecommendedAction.CORRECT
    else none
  { overall_status :=
      if hasMajorFailure || hasCriticalFailure then OverallStatus.FAILED
      else OverallStatus.PASSED
    validation_checks := checks
    severity := severity
    recommended_action := recommendedAction }

/-! ## Generation loop (`src/app/api/generate/route.ts` lines 53-114) -/

/-- The response status values of the API route. -/
inductive GenStatus where
  | validated
  | corrected
  | flagged
  | rejected
  deriving Repr, DecidableEq

/-- The route's default retry bound (`MAX_ITERATIONS = 3`). -/
def MAX_ITERATIONS : Nat := 3

/-- The `while (iterations < max_iterations)` loop of the route's `POST`
handler.  The collaborator (text-completion service) is modelled as a function
`outputs` from the attempt number (0-based) to the text it returns for that
attempt; `remaining` is `max_iterations - i` where `i` is the number of
attempts already made.  Each iteration validates the attempt's text, then:
PASSED breaks with `validated`; severity CRITICAL breaks with `rejected`;
severity MINOR breaks with `flagged`; otherwise (MAJOR) it retries while
`iterations < max_iterations`, else sets `flagged` and falls out of the loop.
The pair returned is `(status, iterations)`.  `status` starts as `rejected`,
which is what the route reports when the loop body never runs. -/
def genLoopAux (context : AuthorizedContext) (outputs : Nat → String) :
    Nat → Nat → GenStatus × Nat
  | 0, i => (GenStatus.rejected, i)
  | r + 1, i =>
    let report := validateGeneratedText (outputs i) context
    if report.overall_status = OverallStatus.PASSED then (GenStatus.validated, i + 1)
    else if report.severity = some Severity.CRITICAL then (GenStatus.rejected, i + 1)
    else if report.severity = some Severity.MINOR then (GenStatus.flagged, i + 1)
    else if r = 0 then (GenStatus.flagged, i + 1)
    else genLoopAux context outputs r (i + 1)

/-- The generation loop of the route's `POST` handler, returning the final
response status and the number of collaborator invocations made. -/
def generationLoop (context : AuthorizedContext) (outputs : Nat → String)
    (maxIterations : Nat) : GenStatus × Nat :=
  genLoopAux context outputs maxIterations 0

/-- The validation report of attempt `k` (0-based) of the generation loop. -/
def reportAt (context : AuthorizedContext) (outputs : Nat → String) (k : Nat) :
    ValidationResult :=
  validateGeneratedText (outputs k) context

/-- Attempt `k` produced a MAJOR failure (overall FAILED, severity MAJOR) —
the only validation outcome that makes the loop retry. -/
def IsMajorFail (context : AuthorizedContext) (outputs : Nat → String) (k : Nat) : Prop :=
  (reportAt context outputs k).overall_status = OverallStatus.FAILED ∧
    (reportAt context outputs k).severity = some Severity.MAJOR

/-! ## Basic lemmas about the path predicates and the retriever -/

theorem pathsMatch_iff (p q : List String) : pathsMatch p q = true ↔ p = q := by
  induction p generalizing q with
  | nil => cases q <;> simp [pathsMatch]
  | cons a as ih =>
    cases q with
    | nil => simp [pathsMatch]
    | cons b bs =>
      have h := ih bs
      simp only [pathsMatch, List.length_cons, List.zip_cons_cons, List.all_cons,
        Bool.and_eq_true, beq_iff_eq, Nat.add_right_cancel_iff] at h ⊢
      constructor
      · rintro ⟨hl, hb, hall⟩
        exact List.cons_eq_cons.mpr ⟨hb, h.mp ⟨hl, hall⟩⟩
      · intro heq
        rcases List.cons_eq_cons.mp heq with ⟨hb, hs⟩
        rcases h.mpr hs with ⟨hl, hall⟩
        exact ⟨hl, hb, hall⟩

theorem isAnalyticalPathPrefixOfItem_iff (a b : List String) :
    isAnalyticalPathPrefixOfItem a b = true ↔ ∃ t, b = a ++ t := by
  induction a generalizing b with
  | nil => simp [isAnalyticalPathPrefixOfItem]
  | cons x xs ih =>
    cases b with
    | nil => simp [isAnalyticalPathPrefixOfItem]
    | cons y ys =>
      by_cases hlen : ys.length < xs.length
      · have hfalse : isAnalyticalPathPrefixOfItem (x :: xs) (y :: ys) = false := by
          simp [isAnalyticalPathPrefixOfItem, hlen]
        rw [hfalse]
        simp only [Bool.false_eq_true, false_iff]
        rintro ⟨t, ht⟩
        rcases List.cons_eq_cons.mp ht with ⟨_, hys⟩
        have : xs.length ≤ ys.length := by subst hys; simp
        omega
      · have hstep : isAnalyticalPathPrefixOfItem (x :: xs) (y :: ys) =
            ((x == y) && isAnalyticalPathPrefixOfItem xs ys) := by
          simp [isAnalyticalPathPrefixOfItem, hlen]
        rw [hstep]
        simp only [Bool.and_eq_true, beq_iff_eq, ih]
        constructor
        · rintro ⟨hxy, t, ht⟩
          exact ⟨t, by simp [hxy, ht]⟩
        · rintro ⟨t, ht⟩
          rcases List.cons_eq_cons.mp ht with ⟨hxy, hys⟩
          exact ⟨hxy.symm, t, hys⟩

theorem retrieveAux_spec (p : List String) (items : List BSetItem) :
    retrieveAux p items =
      (items.filter (fun i => pathsMatch i.taxonomy_path p),
       items.filter (fun i => !pathsMatch i.taxonomy_path p &&
         isAnalyticalPathPrefixOfItem p i.taxonomy_path)) := by
  induction items with
  | nil => rfl
  | cons x xs ih =>
    cases h1 : pathsMatch x.taxonomy_path p <;>
      cases h2 : isAnalyticalPathPrefixOfItem p x.taxonomy_path <;>
        simp [retrieveAux, ih, List.filter_cons, h1, h2]

/-- C2.  `retrieveAuthorities` (`retrieveReasoningObjects`) returns exactly
the items whose classification path equals the query path or extends it, in
the order: all exact matches first (source order), then all inherited
(strict-extension) matches (source order).  The first conjunct pins the exact
output list; the second is the membership characterization (prefix-soundness
and completeness). -/
theorem retrieve_authorities_spec (p : List String) (items : List BSetItem) :
    retrieveReasoningObjects p items =
        items.filter (fun i => pathsMatch i.taxonomy_path p) ++
          items.filter (fun i => !pathsMatch i.taxonomy_path p &&
            isAnalyticalPathPrefixOfItem p i.taxonomy_path) ∧
      ∀ i : BSetItem, i ∈ retrieveReasoningObjects p items ↔
        i ∈ items ∧ (i.taxonomy_path = p ∨ ∃ t, i.taxonomy_path = p ++ t) := by
  have hspec := retrieveAux_spec p items
  have heq : retrieveReasoningObjects p items =
      items.filter (fun i => pathsMatch i.taxonomy_path p) ++
        items.filter (fun i => !pathsMatch i.taxonomy_path p &&
          isAnalyticalPathPrefixOfItem p i.taxonomy_path) := by
    unfold retrieveReasoningObjects
    rw [hspec]
  refine ⟨heq, fun i => ?_⟩
  rw [heq]
  simp only [List.mem_append, List.mem_filter, Bool.and_eq_true, Bool.not_eq_true']
  constructor
  · rintro (⟨hm, hx⟩ | ⟨hm, _, hx⟩)
    · exact ⟨hm, Or.inl ((pathsMatch_iff _ _).mp hx)⟩
    · rcases (isAnalyticalPathPrefixOfItem_iff _ _).mp hx with ⟨t, ht⟩
      exact ⟨hm, Or.inr ⟨t, ht⟩⟩
  · rintro ⟨hm, hx | ⟨t, ht⟩⟩
    · exact Or.inl ⟨hm, (pathsMatch_iff _ _).mpr hx⟩
    · by_cases hex : pathsMatch i.taxonomy_path p = true
      · exact Or.inl ⟨hm, hex⟩
      · refine Or.inr ⟨hm, by simp [hex], (isAnalyticalPathPrefixOfItem_iff _ _).mpr ⟨t, ht⟩⟩

/-- Witness for C2 at a concrete input: an inherited (strict-extension) item
is retrieved. -/
theorem retrieve_authorities_spec_witness :
    ({ id := "1", taxonomy_path := ["r", "x"] } : BSetItem) ∈
      retrieveReasoningObjects ["r"]
        [{ id := "1", taxonomy_path := ["r", "x"] }, { id := "2", taxonomy_path := ["q"] }] :=
  ((retrieve_authorities_spec ["r"] _).2 _).mpr
    ⟨by simp, Or.inr ⟨["x"], rfl⟩⟩

/-- C5 (code-bug evidence).  When the target node references a parent
identifier (`"ghost"`) that resolves to no node in the taxonomy,
`computeAnalyticalPath` silently returns the truncated path `["n1"]` as an
ordinary value: no error is surfaced, contrary to the spec's requirement that
a broken parent chain fail fast with a distinct error kind. -/
theorem computeAnalyticalPath_broken_chain_silent :
    computeAnalyticalPath { id := "n1", title := "T", parent_id := some "ghost" }
      [{ id := "n1", title := "T", parent_id := some "ghost" }] = ["n1"] := by
  decide

/-! ## Citation verification: claims C1 and C9 -/

theorem strContains_empty_needle (h : String) : strContains h "" = true := by
  unfold strContains
  cases hl : h.toList with
  | nil => simp [List.tails, List.isPrefixOf]
  | cons c cs => simp [List.tails, List.isPrefixOf]

/-- A citation is authorized in the sense the source implements: its
normalized form equals the normalized name, or equals the normalized citation
field, or contains, or is contained in, the normalized *name* field of some
authorized item.  (Propositional mirror of `citationMatchesObj`.) -/
def CitationAuthorized (c : String) (objs : List BSetItem) : Prop :=
  ∃ obj ∈ objs,
    normalizeCitation c = normalizeCitation obj.name ∨
    normalizeCitation c = normalizeCitation (obj.citation.getD "") ∨
    strContains (normalizeCitation c) (normalizeCitation obj.name) = true ∨
    strContains (normalizeCitation obj.name) (normalizeCitation c) = true

theorem citationMatchesObj_any_iff (c : String) (objs : List BSetItem) :
    objs.any (citationMatchesObj (normalizeCitation c)) = true ↔
      CitationAuthorized c objs := by
  unfold CitationAuthorized
  rw [List.any_eq_true]
  refine exists_congr fun obj => and_congr_right fun _ => ?_
  unfold citationMatchesObj
  simp only [Bool.or_eq_true, beq_iff_eq]
  tauto

/-- Authorization per the spec sentence of C1, which additionally deems a
citation authorized when its normalized form contains or is contained by the
normalized *citation* field.  Modelled from the spec for comparison with the
source's predicate. -/
def citationAuthorizedPerSpec (citation : String) (objs : List BSetItem) : Bool :=
  objs.any (fun obj =>
    let normalized := normalizeCitation citation
    let objName := normalizeCitation obj.name
    let objCitation := normalizeCitation (obj.citation.getD "")
    normalized == objName || normalized == objCitation ||
      strContains normalized objName || strContains objName normalized ||
      strContains normalized objCitation || strContains objCitation normalized)

/-- C1 counterexample.  For the generated text `"410 U.S. 113"` and a context
whose single item has name `"Alpha"` and citation field `"US 113"`, the only
extracted citation normalizes to `"410 us 113"`, which strictly contains the
item's normalized citation field `"us 113"` — authorized according to the
claim — yet the source's check FAILs, because containment is tested against
the name field only. -/
theorem citation_check_containment_counterexample :
    extractCitations "410 U.S. 113" = ["410 U.S. 113"] ∧
    citationAuthorizedPerSpec "410 U.S. 113"
        [{ name := "Alpha", citation := some "US 113" }] = true ∧
    (verifyCitations "410 U.S. 113"
        [{ name := "Alpha", citation := some "US 113" }]).status = CheckStatus.FAIL := by
  decide

/-- C1 (amended).  The citation check FAILs exactly when some extracted
citation is unauthorized, and PASSes otherwise, where a citation is
authorized iff its normalized form equals the normalized name or citation
field of some authorized item, or contains, or is contained by, the
normalized *name* field of some authorized item (containment is not tested
against the citation field). -/
instance (c : String) (objs : List BSetItem) : Decidable (CitationAuthorized c objs) := by
  unfold CitationAuthorized
  infer_instance

theorem citation_filter_eq_nil_iff (text : String) (objs : List BSetItem) :
    ((extractCitations text).filter
        (fun citation => !(objs.any (citationMatchesObj (normalizeCitation citation)))) = []) ↔
      ∀ c ∈ extractCitations text, CitationAuthorized c objs := by
  rw [List.filter_eq_nil_iff]
  refine forall_congr' fun c => forall_congr' fun _ => ?_
  rw [← citationMatchesObj_any_iff c objs]
  cases objs.any (citationMatchesObj (normalizeCitation c)) <;> simp

theorem citation_check_fail_iff (text : String) (objs : List BSetItem) :
    ((verifyCitations text objs).status = CheckStatus.FAIL ↔
      ∃ c ∈ extractCitations text, ¬ CitationAuthorized c objs) ∧
    ((verifyCitations text objs).status = CheckStatus.PASS ↔
      ∀ c ∈ extractCitations text, CitationAuthorized c objs) := by
  cases hfil : (extractCitations text).filter
      (fun citation => !(objs.any (citationMatchesObj (normalizeCitation citation)))) with
  | nil =>
    have hall : ∀ c ∈ extractCitations text, CitationAuthorized c objs :=
      (citation_filter_eq_nil_iff text objs).mp hfil
    have hstat : (verifyCitations text objs).status = CheckStatus.PASS := by
      simp only [verifyCitations, hfil, List.isEmpty_nil, if_true]
    rw [hstat]
    constructor
    · constructor
      · intro h; exact absurd h (by decide)
      · rintro ⟨c, hc, hnot⟩; exact absurd (hall c hc) hnot
    · exact ⟨fun _ => hall, fun _ => rfl⟩
  | cons u us =>
    have hne : ¬ ∀ c ∈ extractCitations text, CitationAuthorized c objs := by
      intro hall
      have := (citation_filter_eq_nil_iff text objs).mpr hall
      rw [hfil] at this
      exact List.cons_ne_nil _ _ this
    have hstat : (verifyCitations text objs).status = CheckStatus.FAIL := by
      simp only [verifyCitations, hfil, List.isEmpty_cons, Bool.false_eq_true, if_false]
    rw [hstat]
    constructor
    · constructor
      · intro _
        by_contra hno
        push_neg at hno
        exact hne hno
      · intro _; rfl
    · constructor
      · intro h; exact absurd h (by decide)
      · intro hall; exact absurd hall hne

/-- Witness for C1's amended theorem at a concrete input: `"Smith v. Jones"`
is extracted and matches no authorized item, so the check FAILs. -/
theorem citation_check_fail_iff_witness :
    (verifyCitations "Smith v. Jones" [{ name := "Alpha" }]).status = CheckStatus.FAIL :=
  (citation_check_fail_iff "Smith v. Jones" [{ name := "Alpha" }]).1.mpr
    ⟨"Smith v. Jones", by decide, by decide⟩

/-- C9.  If some authorized item's name normalizes to the empty string, every
extracted citation is authorized (the empty string is contained in every
normalized citation), so the citation check always PASSes against such a
context. -/
theorem empty_normalized_name_authorizes_everything
    (text : String) (objs : List BSetItem)
    (h : ∃ obj ∈ objs, normalizeCitation obj.name = "") :
    (verifyCitations text objs).status = CheckStatus.PASS := by
  obtain ⟨obj, hmem, hname⟩ := h
  apply (citation_check_fail_iff text objs).2.mpr
  intro c _
  exact ⟨obj, hmem, Or.inr (Or.inr (Or.inl (by rw [hname]; exact strContains_empty_needle _)))⟩

/-- Witness for C9 at a concrete input: the item's name `"!!!"` normalizes to
`""`, so even the unknown citation `"Smith v. Jones"` passes. -/
theorem empty_normalized_name_authorizes_everything_witness :
    (verifyCitations "Smith v. Jones" [{ name := "!!!" }]).status = CheckStatus.PASS :=
  empty_normalized_name_authorizes_everything "Smith v. Jones" [{ name := "!!!" }]
    ⟨{ name := "!!!" }, by decide, by decide⟩

/-! ## Validation aggregation: claim C3 -/

theorem verifyCitations_check_type (text : String) (objs : List BSetItem) :
    (verifyCitations text objs).check_type = "citation_verification" := by
  simp only [verifyCitations]
  split <;> rfl

theorem verifyRuleMappings_check_type (text : String) (objs : List BSetItem) :
    (verifyRuleMappings text objs).check_type = "rule_to_field_mapping" := by
  simp only [verifyRuleMappings]
  split <;> rfl

theorem verifyConstraintCompliance_check_type (text : String) (ctx : AuthorizedContext) :
    (verifyConstraintCompliance text ctx).check_type = "constraint_compliance" := by
  simp only [verifyConstraintCompliance]
  split
  · rfl
  · split <;> rfl

/-- C3.  The aggregation of `validateGeneratedText` over its three checks:
citation failure gives CRITICAL/REJECT; otherwise any failure gives
MAJOR/REGENERATE; otherwise any warning gives MINOR/CORRECT; otherwise no
severity or action is set; and the overall status is PASSED exactly when no
check FAILed (warnings alone never fail the report). -/
theorem validation_aggregation_spec (text : String) (ctx : AuthorizedContext) :
    (validateGeneratedText text ctx).validation_checks =
        [verifyCitations text ctx.reasoning_objects,
         verifyRuleMappings text ctx.reasoning_objects,
         verifyConstraintCompliance text ctx] ∧
    ((verifyCitations text ctx.reasoning_objects).status = CheckStatus.FAIL →
      (validateGeneratedText text ctx).severity = some Severity.CRITICAL ∧
      (validateGeneratedText text ctx).recommended_action = some RecommendedAction.REJECT) ∧
    ((verifyCitations text ctx.reasoning_objects).status ≠ CheckStatus.FAIL →
      (∃ c ∈ (validateGeneratedText text ctx).validation_checks, c.status = CheckStatus.FAIL) →
      (validateGeneratedText text ctx).severity = some Severity.MAJOR ∧
      (validateGeneratedText text ctx).recommended_action = some RecommendedAction.REGENERATE) ∧
    ((∀ c ∈ (validateGeneratedText text ctx).validation_checks, c.status ≠ CheckStatus.FAIL) →
      (∃ c ∈ (validateGeneratedText text ctx).validation_checks,
        c.status = CheckStatus.WARNING) →
      (validateGeneratedText text ctx).severity = some Severity.MINOR ∧
      (validateGeneratedText text ctx).recommended_action = some RecommendedAction.CORRECT) ∧
    ((∀ c ∈ (validateGeneratedText text ctx).validation_checks,
        c.status ≠ CheckStatus.FAIL ∧ c.status ≠ CheckStatus.WARNING) →
      (validateGeneratedText text ctx).severity = none ∧
      (validateGeneratedText text ctx).recommended_action = none) ∧
    ((validateGeneratedText text ctx).overall_status = OverallStatus.PASSED ↔
      ∀ c ∈ (validateGeneratedText text ctx).validation_checks,
        c.status ≠ CheckStatus.FAIL) := by
  have h1 : isCriticalCheck (verifyCitations text ctx.reasoning_objects).check_type = true := by
    rw [verifyCitations_check_type]; rfl
  have h2 : isCriticalCheck (verifyRuleMappings text ctx.reasoning_objects).check_type = false := by
    rw [verifyRuleMappings_check_type]; rfl
  have h3 : isCriticalCheck (verifyConstraintCompliance text ctx).check_type = false := by
    rw [verifyConstraintCompliance_check_type]; rfl
  rcases hs1 : (verifyCitations text ctx.reasoning_objects).status <;>
    rcases hs2 : (verifyRuleMappings text ctx.reasoning_objects).status <;>
      rcases hs3 : (verifyConstraintCompliance text ctx).status <;>
        simp_all [validateGeneratedText, List.any_cons, List.any_nil]

/-- Witness for C3 at a concrete input: a text with an unauthorized citation
gets severity CRITICAL and recommended action REJECT. -/
theorem validation_aggregation_spec_witness :
    (validateGeneratedText "Smith v. Jones"
        { reasoning_objects := [{ name := "Alpha" }] }).severity = some Severity.CRITICAL ∧
    (validateGeneratedText "Smith v. Jones"
        { reasoning_objects := [{ name := "Alpha" }] }).recommended_action =
      some RecommendedAction.REJECT :=
  (validation_aggregation_spec "Smith v. Jones"
      { reasoning_objects := [{ name := "Alpha" }] }).2.1 (by decide)

/-! ## Severity facts used by the generation loop -/

theorem validate_severity_critical_failed (text : String) (ctx : AuthorizedContext) :
    (validateGeneratedText text ctx).severity = some Severity.CRITICAL →
      (validateGeneratedText text ctx).overall_status = OverallStatus.FAILED := by
  have h1 : isCriticalCheck (verifyCitations text ctx.reasoning_objects).check_type = true := by
    rw [verifyCitations_check_type]; rfl
  have h2 : isCriticalCheck (verifyRuleMappings text ctx.reasoning_objects).check_type = false := by
    rw [verifyRuleMappings_check_type]; rfl
  have h3 : isCriticalCheck (verifyConstraintCompliance text ctx).check_type = false := by
    rw [verifyConstraintCompliance_check_type]; rfl
  rcases hs1 : (verifyCitations text ctx.reasoning_objects).status <;>
    rcases hs2 : (verifyRuleMappings text ctx.reasoning_objects).status <;>
      rcases hs3 : (verifyConstraintCompliance text ctx).status <;>
        simp_all [validateGeneratedText, List.any_cons, List.any_nil]

theorem validate_severity_minor_passed (text : String) (ctx : AuthorizedContext) :
    (validateGeneratedText text ctx).severity = some Severity.MINOR →
      (validateGeneratedText text ctx).overall_status = OverallStatus.PASSED := by
  have h1 : isCriticalCheck (verifyCitations text ctx.reasoning_objects).check_type = true := by
    rw [verifyCitations_check_type]; rfl
  have h2 : isCriticalCheck (verifyRuleMappings text ctx.reasoning_objects).check_type = false := by
    rw [verifyRuleMappings_check_type]; rfl
  have h3 : isCriticalCheck (verifyConstraintCompliance text ctx).check_type = false := by
    rw [verifyConstraintCompliance_check_type]; rfl
  rcases hs1 : (verifyCitations text ctx.reasoning_objects).status <;>
    rcases hs2 : (verifyRuleMappings text ctx.reasoning_objects).status <;>
      rcases hs3 : (verifyConstraintCompliance text ctx).status <;>
        simp_all [validateGeneratedText, List.any_cons, List.any_nil]

theorem validate_failed_severity (text : String) (ctx : AuthorizedContext) :
    (validateGeneratedText text ctx).overall_status = OverallStatus.FAILED →
      (validateGeneratedText text ctx).severity = some Severity.CRITICAL ∨
        (validateGeneratedText text ctx).severity = some Severity.MAJOR := by
  have h1 : isCriticalCheck (verifyCitations text ctx.reasoning_objects).check_type = true := by
    rw [verifyCitations_check_type]; rfl
  have h2 : isCriticalCheck (verifyRuleMappings text ctx.reasoning_objects).check_type = false := by
    rw [verifyRuleMappings_check_type]; rfl
  have h3 : isCriticalCheck (verifyConstraintCompliance text ctx).check_type = false := by
    rw [verifyConstraintCompliance_check_type]; rfl
  rcases hs1 : (verifyCitations text ctx.reasoning_objects).status <;>
    rcases hs2 : (verifyRuleMappings text ctx.reasoning_objects).status <;>
      rcases hs3 : (verifyConstraintCompliance text ctx).status <;>
        simp_all [validateGeneratedText, List.any_cons, List.any_nil]

/-! ## Generation loop lemmas (claim C4) -/

theorem genLoopAux_passed (ctx : AuthorizedContext) (outputs : Nat → String)
    (i r : Nat) (hr : 0 < r)
    (h : (reportAt ctx outputs i).overall_status = OverallStatus.PASSED) :
    genLoopAux ctx outputs r i = (GenStatus.validated, i + 1) := by
  match r, hr with
  | r' + 1, _ =>
    have h' : (validateGeneratedText (outputs i) ctx).overall_status = OverallStatus.PASSED := h
    simp only [genLoopAux]
    rw [if_pos h']

theorem genLoopAux_critical (ctx : AuthorizedContext) (outputs : Nat → String)
    (i r : Nat) (hr : 0 < r)
    (h : (reportAt ctx outputs i).severity = some Severity.CRITICAL) :
    genLoopAux ctx outputs r i = (GenStatus.rejected, i + 1) := by
  match r, hr with
  | r' + 1, _ =>
    have h' : (validateGeneratedText (outputs i) ctx).severity = some Severity.CRITICAL := h
    have hov := validate_severity_critical_failed (outputs i) ctx h'
    have hnp : ¬ ((validateGeneratedText (outputs i) ctx).overall_status =
        OverallStatus.PASSED) := by
      rw [hov]; decide
    simp only [genLoopAux]
    rw [if_neg hnp, if_pos h']

theorem genLoopAux_minor (ctx : AuthorizedContext) (outputs : Nat → String)
    (i r : Nat) (hr : 0 < r)
    (h : (reportAt ctx outputs i).severity = some Severity.MINOR) :
    genLoopAux ctx outputs r i = (GenStatus.validated, i + 1) := by
  exact genLoopAux_passed ctx outputs i r hr (validate_severity_minor_passed (outputs i) ctx h)

theorem genLoopAux_major_step (ctx : AuthorizedContext) (outputs : Nat → String)
    (i r : Nat) (h : IsMajorFail ctx outputs i) (hr : 1 < r) :
    genLoopAux ctx outputs r i = genLoopAux ctx outputs (r - 1) (i + 1) := by
  obtain ⟨hov, hsev⟩ := h
  have hov' : (validateGeneratedText (outputs i) ctx).overall_status = OverallStatus.FAILED := hov
  have hsev' : (validateGeneratedText (outputs i) ctx).severity = some Severity.MAJOR := hsev
  match r, hr with
  | r' + 1, hr =>
    have hnp : ¬ ((validateGeneratedText (outputs i) ctx).overall_status =
        OverallStatus.PASSED) := by
      rw [hov']; decide
    have hnc : ¬ ((validateGeneratedText (outputs i) ctx).severity =
        some Severity.CRITICAL) := by
      rw [hsev']; decide
    have hnm : ¬ ((validateGeneratedText (outputs i) ctx).severity =
        some Severity.MINOR) := by
      rw [hsev']; decide
    have hr0 : ¬ (r' = 0) := by omega
    simp only [genLoopAux]
    rw [if_neg hnp, if_neg hnc, if_neg hnm, if_neg hr0]
    rfl

theorem genLoopAux_major_last (ctx : AuthorizedContext) (outputs : Nat → String)
    (i : Nat) (h : IsMajorFail ctx outputs i) :
    genLoopAux ctx outputs 1 i = (GenStatus.flagged, i + 1) := by
  obtain ⟨hov, hsev⟩ := h
  have hov' : (validateGeneratedText (outputs i) ctx).overall_status = OverallStatus.FAILED := hov
  have hsev' : (validateGeneratedText (outputs i) ctx).severity = some Severity.MAJOR := hsev
  have hnp : ¬ ((validateGeneratedText (outputs i) ctx).overall_status =
      OverallStatus.PASSED) := by
    rw [hov']; decide
  have hnc : ¬ ((validateGeneratedText (outputs i) ctx).severity =
      some Severity.CRITICAL) := by
    rw [hsev']; decide
  have hnm : ¬ ((validateGeneratedText (outputs i) ctx).severity =
      some Severity.MINOR) := by
    rw [hsev']; decide
  simp only [genLoopAux]
  rw [if_neg hnp, if_neg hnc, if_neg hnm]
  simp

theorem genLoopAux_skip_majors (ctx : AuthorizedContext) (outputs : Nat → String) :
    ∀ (k i r : Nat), (∀ j, i ≤ j → j < i + k → IsMajorFail ctx outputs j) → k < r →
      genLoopAux ctx outputs r i = genLoopAux ctx outputs (r - k) (i + k) := by
  intro k
  induction k with
  | zero => intro i r _ _; simp
  | succ k ih =>
    intro i r hmaj hlt
    have h0 : IsMajorFail ctx outputs i := hmaj i le_rfl (by omega)
    have hr : 1 < r := by omega
    rw [genLoopAux_major_step ctx outputs i r h0 hr]
    have e1 : r - (k + 1) = (r - 1) - k := by omega
    have e2 : i + (k + 1) = (i + 1) + k := by omega
    rw [e1, e2]
    exact ih (i + 1) (r - 1) (fun j hj1 hj2 => hmaj j (by omega) (by omega)) (by omega)

theorem genLoopAux_iterations_le (ctx : AuthorizedContext) (outputs : Nat → String) :
    ∀ (r i : Nat), (genLoopAux ctx outputs r i).2 ≤ i + r := by
  intro r
  induction r with
  | zero => intro i; simp [genLoopAux]
  | succ r' ih =>
    intro i
    simp only [genLoopAux]
    split
    · simp
    · split
      · simp
      · split
        · simp
        · split
          · simp
          · calc (genLoopAux ctx outputs r' (i + 1)).2 ≤ (i + 1) + r' := ih (i + 1)
              _ = i + (r' + 1) := by omega

theorem genLoopAux_retries_major (ctx : AuthorizedContext) (outputs : Nat → String) :
    ∀ (r i j : Nat), i ≤ j → j + 1 < (genLoopAux ctx outputs r i).2 →
      IsMajorFail ctx outputs j := by
  intro r
  induction r with
  | zero => intro i j hij h; simp [genLoopAux] at h; omega
  | succ r' ih =>
    intro i j hij h
    by_cases hp : (validateGeneratedText (outputs i) ctx).overall_status = OverallStatus.PASSED
    · rw [genLoopAux_passed ctx outputs i (r' + 1) (by omega) hp] at h
      simp at h; omega
    · by_cases hc : (validateGeneratedText (outputs i) ctx).severity = some Severity.CRITICAL
      · rw [genLoopAux_critical ctx outputs i (r' + 1) (by omega) hc] at h
        simp at h; omega
      · by_cases hm : (validateGeneratedText (outputs i) ctx).severity = some Severity.MINOR
        · rw [genLoopAux_minor ctx outputs i (r' + 1) (by omega) hm] at h
          simp at h; omega
        · have hfailed : (validateGeneratedText (outputs i) ctx).overall_status =
              OverallStatus.FAILED := by
            rcases hov : (validateGeneratedText (outputs i) ctx).overall_status
            · exact absurd hov hp
            · rfl
          have hmaj : IsMajorFail ctx outputs i := by
            rcases validate_failed_severity (outputs i) ctx hfailed with hcrit | hmaj
            · exact absurd hcrit hc
            · exact ⟨hfailed, hmaj⟩
          rcases Nat.eq_or_lt_of_le hij with heq | hlt
          · exact heq ▸ hmaj
          · rcases Nat.eq_zero_or_pos r' with hr0 | hr0
            · rw [hr0, genLoopAux_major_last ctx outputs i hmaj] at h
              simp at h; omega
            · rw [genLoopAux_major_step ctx outputs i (r' + 1) hmaj (by omega)] at h
              exact ih (i + 1) j (by omega) (by simpa using h)

/-- C4 (amended).  Suppose the loop reaches attempt `i` (every earlier attempt
was a MAJOR failure and `i < maxIterations`).  Then: a CRITICAL outcome at
attempt `i` terminates the loop immediately (exactly `i + 1` collaborator
invocations) with status `rejected`; a MINOR outcome — which always coincides
with an overall PASSED report — terminates immediately with status
`validated` (not `flagged` as the claim states); a PASSED outcome terminates
immediately with status `validated`; a MAJOR outcome on the last permitted
attempt terminates with status `flagged`.  Moreover the loop never makes more
than `maxIterations` attempts, every attempt that was followed by another one
was a MAJOR failure (only MAJOR outcomes trigger a retry), and the route's
default bound is 3. -/
theorem generation_loop_spec (ctx : AuthorizedContext) (outputs : Nat → String)
    (maxIterations i : Nat) (hi : i < maxIterations)
    (hprev : ∀ j < i, IsMajorFail ctx outputs j) :
    ((reportAt ctx outputs i).severity = some Severity.CRITICAL →
      generationLoop ctx outputs maxIterations = (GenStatus.rejected, i + 1)) ∧
    ((reportAt ctx outputs i).severity = some Severity.MINOR →
      generationLoop ctx outputs maxIterations = (GenStatus.validated, i + 1)) ∧
    ((reportAt ctx outputs i).overall_status = OverallStatus.PASSED →
      generationLoop ctx outputs maxIterations = (GenStatus.validated, i + 1)) ∧
    (IsMajorFail ctx outputs i → i + 1 = maxIterations →
      generationLoop ctx outputs maxIterations = (GenStatus.flagged, i + 1)) ∧
    (generationLoop ctx outputs maxIterations).2 ≤ maxIterations ∧
    (∀ j, j + 1 < (generationLoop ctx outputs maxIterations).2 →
      IsMajorFail ctx outputs j) ∧
    MAX_ITERATIONS = 3 := by
  have hskip : genLoopAux ctx outputs maxIterations 0 =
      genLoopAux ctx outputs (maxIterations - i) i := by
    have := genLoopAux_skip_majors ctx outputs i 0 maxIterations
      (fun j hj1 hj2 => hprev j (by omega)) hi
    simpa using this
  have hpos : 0 < maxIterations - i := by omega
  refine ⟨?_, ?_, ?_, ?_, ?_, ?_, rfl⟩
  · intro h
    unfold generationLoop
    rw [hskip, genLoopAux_critical ctx outputs i _ hpos h]
  · intro h
    unfold generationLoop
    rw [hskip, genLoopAux_minor ctx outputs i _ hpos h]
  · intro h
    unfold generationLoop
    rw [hskip, genLoopAux_passed ctx outputs i _ hpos h]
  · intro h hlast
    unfold generationLoop
    rw [hskip]
    have : maxIterations - i = 1 := by omega
    rw [this, genLoopAux_major_last ctx outputs i h]
  · have := genLoopAux_iterations_le ctx outputs maxIterations 0
    simpa [generationLoop] using this
  · intro j hj
    exact genLoopAux_retries_major ctx outputs maxIterations 0 j (Nat.zero_le j) hj

/-- A required-test constraint whose significant words do not occur in the
text `"Hello"` (concrete input for the MINOR-severity scenario). -/
def testOnlyConstraint : ConstraintObject :=
  { is_test_standard := true
    content := ConstraintContent.str "jurisdiction analysis framework" }

/-- A context holding `testOnlyConstraint` and nothing else. -/
def testOnlyContext : AuthorizedContext :=
  { constraint_objects := [testOnlyConstraint] }

/-- C4 counterexample.  A context with one required-test constraint and no
other constraints or authorities: the text `"Hello"` passes the citation and
rule checks, gets a constraint WARNING, hence severity MINOR — and the loop
terminates with status `validated` (the MINOR branch of the route is dead
code, since MINOR implies an overall PASSED report), not `flagged` as the
claim states. -/
theorem generation_loop_minor_counterexample :
    (validateGeneratedText "Hello" testOnlyContext).severity = some Severity.MINOR ∧
    generationLoop testOnlyContext (fun _ => "Hello") 3 = (GenStatus.validated, 1) ∧
    GenStatus.validated ≠ GenStatus.flagged := by
  refine ⟨by decide, ?_, by decide⟩
  decide

/-- Witness for C4's amended theorem at a concrete input: an unauthorized
citation on the first attempt (CRITICAL) makes the loop stop at once with
status `rejected` after exactly one collaborator invocation. -/
theorem generation_loop_spec_witness :
    generationLoop { reasoning_objects := [{ name := "Alpha" }] }
        (fun _ => "Smith v. Jones") 3 = (GenStatus.rejected, 1) :=
  (generation_loop_spec { reasoning_objects := [{ name := "Alpha" }] }
      (fun _ => "Smith v. Jones") 3 0 (by omega) (fun j hj => absurd hj (by omega))).1
    (by decide)

/-! ## Similarity scorer lemmas (claim C8) -/

theorem dotList_nil_right (a : List ℕ) : dotList a [] = 0 := by
  cases a <;> rfl

theorem sumSq_cons (x : ℕ) (l : List ℕ) : sumSq (x :: l) = x * x + sumSq l := by
  simp [sumSq]

/-- Induction step of the Cauchy-Schwarz inequality, over `ℤ`. -/
theorem cs_step (x y d A B : ℤ) (hx : 0 ≤ x) (hy : 0 ≤ y) (hd : 0 ≤ d)
    (hA : 0 ≤ A) (hB : 0 ≤ B) (h : d * d ≤ A * B) :
    (x * y + d) * (x * y + d) ≤ (x * x + A) * (y * y + B) := by
  rcases eq_or_lt_of_le hA with hA0 | hApos
  · have hd0 : d = 0 := by nlinarith
    subst hd0
    nlinarith [mul_nonneg (mul_nonneg hx hx) hB, mul_nonneg (mul_nonneg hy hy) hA]
  · nlinarith [sq_nonneg (x * d - A * y), mul_nonneg (mul_nonneg hx hx) (sub_nonneg.mpr h),
      mul_nonneg hA (sub_nonneg.mpr h), mul_nonneg (mul_nonneg hx hy) hd]

/-- Cauchy-Schwarz for the bag-of-words vectors: the squared dot product is
at most the product of the squared magnitudes. -/
theorem dotList_cauchy_schwarz :
    ∀ (a b : List ℕ), dotList a b * dotList a b ≤ sumSq a * sumSq b := by
  intro a
  induction a with
  | nil => intro b; simp [dotList, sumSq]
  | cons x as ih =>
    intro b
    cases b with
    | nil => simp [dotList_nil_right, sumSq]
    | cons y bs =>
      have h := ih bs
      have hz := cs_step (x : ℤ) (y : ℤ) (dotList as bs : ℤ) (sumSq as : ℤ) (sumSq bs : ℤ)
        (by positivity) (by positivity) (by positivity) (by positivity) (by positivity)
        (by exact_mod_cast h)
      have hgoal : ((x * y + dotList as bs) * (x * y + dotList as bs) : ℤ) ≤
          ((x * x + sumSq as) * (y * y + sumSq bs) : ℤ) := by push_cast at hz ⊢; linarith
      show (x * y + dotList as bs) * (x * y + dotList as bs) ≤
        sumSq (x :: as) * sumSq (y :: bs)
      rw [sumSq_cons, sumSq_cons]
      exact_mod_cast hgoal

theorem computeSimilaritySq_nonneg (a b : String) : 0 ≤ computeSimilaritySq a b := by
  simp only [computeSimilaritySq]
  split
  · exact le_refl 0
  · positivity

theorem computeSimilaritySq_le_one (a b : String) : computeSimilaritySq a b ≤ 1 := by
  simp only [computeSimilaritySq]
  split
  · exact zero_le_one
  · rename_i hmag
    push_neg at hmag
    obtain ⟨h1, h2⟩ := hmag
    rw [div_le_one (by positivity)]
    exact_mod_cast dotList_cauchy_schwarz _ _

theorem dotList_self (v : List ℕ) : dotList v v = sumSq v := by
  induction v with
  | nil => rfl
  | cons x l ih => rw [sumSq_cons]; show x * x + dotList l l = _; rw [ih]

theorem mem_dedupFirst_go (a : String) :
    ∀ (l seen : List String), a ∈ dedupFirst.go seen l ↔ a ∈ l ∧ a ∉ seen := by
  intro l
  induction l with
  | nil => intro seen; simp [dedupFirst.go]
  | cons c rest ih =>
    intro seen
    by_cases hc : c ∈ seen
    · have hcont : seen.contains c = true := by
        simpa [List.contains] using List.elem_iff.mpr hc
      have hgo : dedupFirst.go seen (c :: rest) = dedupFirst.go seen rest := by
        show (if seen.contains c then dedupFirst.go seen rest
              else c :: dedupFirst.go (c :: seen) rest) = dedupFirst.go seen rest
        rw [hcont]
        simp
      rw [hgo, ih seen]
      simp only [List.mem_cons]
      constructor
      · rintro ⟨h1, h2⟩; exact ⟨Or.inr h1, h2⟩
      · rintro ⟨h1 | h1, h2⟩
        · exact absurd (h1 ▸ hc) h2
        · exact ⟨h1, h2⟩
    · have hcont : seen.contains c = false := by
        rcases h : seen.contains c
        · rfl
        · exact absurd (List.elem_iff.mp (by simpa [List.contains] using h)) hc
      have hgo : dedupFirst.go seen (c :: rest) = c :: dedupFirst.go (c :: seen) rest := by
        show (if seen.contains c then dedupFirst.go seen rest
              else c :: dedupFirst.go (c :: seen) rest) = _
        rw [hcont]
        simp
      rw [hgo]
      simp only [List.mem_cons, ih (c :: seen)]
      constructor
      · rintro (rfl | ⟨h1, h2⟩)
        · exact ⟨Or.inl rfl, hc⟩
        · exact ⟨Or.inr h1, fun hs => h2 (Or.inr hs)⟩
      · rintro ⟨h1 | h1, h2⟩
        · exact Or.inl h1
        · by_cases hac : a = c
          · exact Or.inl hac
          · refine Or.inr ⟨h1, fun hs => ?_⟩
            rcases hs with h3 | h3
            · exact hac h3
            · exact h2 h3

theorem mem_dedupFirst (a : String) (l : List String) : a ∈ dedupFirst l ↔ a ∈ l := by
  unfold dedupFirst
  rw [mem_dedupFirst_go]
  simp

theorem jsSplitGo_ne_nil (p : Char → Bool) :
    ∀ (l acc : List Char) (inRun : Bool), jsSplitGo p l acc inRun ≠ [] := by
  intro l
  induction l with
  | nil =>
    intro acc inRun
    cases inRun <;> simp [jsSplitGo]
  | cons c cs ih =>
    intro acc inRun
    cases inRun <;> cases hpc : p c <;> simp [jsSplitGo, hpc] <;> apply ih

theorem jsSplit_ne_nil (p : Char → Bool) (s : String) : jsSplit p s ≠ [] :=
  jsSplitGo_ne_nil p s.toList [] false

theorem simWords_ne_nil (t : String) : simWords t ≠ [] :=
  jsSplit_ne_nil _ _

theorem sq_le_sumSq (a : ℕ) (l : List ℕ) (h : a ∈ l) : a * a ≤ sumSq l := by
  induction l with
  | nil => simp at h
  | cons x rest ih =>
    rw [sumSq_cons]
    rcases List.mem_cons.mp h with rfl | h
    · exact Nat.le_add_right _ _
    · calc a * a ≤ sumSq rest := ih h
        _ ≤ x * x + sumSq rest := Nat.le_add_left _ _

theorem computeSimilaritySq_self (s : String) : computeSimilaritySq s s = 1 := by
  have hne : simWords s ≠ [] := simWords_ne_nil s
  obtain ⟨h0, w', hw⟩ : ∃ h0 w', simWords s = h0 :: w' := by
    cases hws : simWords s with
    | nil => exact absurd hws hne
    | cons h0 w' => exact ⟨h0, w', rfl⟩
  have hmem : h0 ∈ simWords s := by rw [hw]; exact List.mem_cons_self _ _
  have hvocab : h0 ∈ allWords (simWords s) (simWords s) := by
    unfold allWords
    exact (mem_dedupFirst _ _).mpr (List.mem_append_left _ hmem)
  have hcount : 1 ≤ (simWords s).count h0 := List.count_pos_iff.mpr hmem
  have hvmem : (simWords s).count h0 ∈
      tfVector (allWords (simWords s) (simWords s)) (simWords s) :=
    List.mem_map_of_mem _ hvocab
  have hsq := sq_le_sumSq _ _ hvmem
  have hpos : sumSq (tfVector (allWords (simWords s) (simWords s)) (simWords s)) ≠ 0 := by
    have h11 : 1 * 1 ≤ (simWords s).count h0 * (simWords s).count h0 :=
      Nat.mul_le_mul hcount hcount
    omega
  simp only [computeSimilaritySq]
  rw [if_neg (by simp [hpos])]
  rw [dotList_self]
  have hq : ((sumSq (tfVector (allWords (simWords s) (simWords s)) (simWords s)) : ℚ)) ≠ 0 :=
    Nat.cast_ne_zero.mpr hpos
  exact div_self (mul_ne_zero hq hq)

theorem dotList_map_mul (f g : String → ℕ) :
    ∀ (l : List String), dotList (l.map f) (l.map g) = (l.map (fun w => f w * g w)).sum := by
  intro l
  induction l with
  | nil => rfl
  | cons x rest ih =>
    show f x * g x + dotList (rest.map f) (rest.map g) = _
    rw [ih]
    simp

theorem simWords_empty_string : simWords "" = [""] := rfl

/-- When the tokenization of `s` contains no empty token, the similarity of
`s` against the empty string is zero: the only token of `""` is `""` itself,
which then occurs zero times in `s`'s tokens, so the dot product vanishes. -/
theorem computeSimilaritySq_empty_right (s : String) (h : "" ∉ simWords s) :
    computeSimilaritySq s "" = 0 := by
  have hdot : dotList
      (tfVector (allWords (simWords s) (simWords "")) (simWords s))
      (tfVector (allWords (simWords s) (simWords "")) (simWords "")) = 0 := by
    unfold tfVector
    rw [dotList_map_mul]
    apply List.sum_eq_zero
    intro x hx
    rcases List.mem_map.mp hx with ⟨w, _, rfl⟩
    by_cases hwe : w = ""
    · subst hwe
      rw [List.count_eq_zero_of_not_mem h]
      simp
    · rw [simWords_empty_string]
      rw [List.count_eq_zero_of_not_mem (fun hmem => hwe (List.mem_singleton.mp hmem))]
      simp
  simp only [computeSimilaritySq]
  split
  · rfl
  · rw [hdot]
    simp

/-- Every pair of strings has a (unique nonnegative) similarity value. -/
theorem similarity_exists (a b : String) : ∃ x : ℝ, IsSimilarity a b x := by
  refine ⟨Real.sqrt (computeSimilaritySq a b : ℝ), Real.sqrt_nonneg _, ?_⟩
  exact Real.sq_sqrt (by exact_mod_cast computeSimilaritySq_nonneg a b)

/-- C8 counterexample.  The source's similarity of the empty string with
itself is `1`, not `0`: `"".split(/\s+/)` is `[""]`, giving the vector `[1]`
with dot product and magnitudes `1`.  This refutes the claim's
`similarity(s, "") = 0 for every string s` at `s = ""`. -/
theorem similarity_empty_empty_counterexample :
    computeSimilaritySq "" "" = 1 ∧ IsSimilarity "" "" 1 ∧ ¬ IsSimilarity "" "" 0 := by
  have h1 : computeSimilaritySq "" "" = 1 := computeSimilaritySq_self ""
  refine ⟨h1, ⟨by norm_num, by rw [h1]; norm_num⟩, ?_⟩
  rintro ⟨_, hsq⟩
  rw [h1] at hsq
  norm_num at hsq

/-- C8 (amended).  The similarity value (characterised by `IsSimilarity`) is
always in `[0, 1]`; `similarity(s, s) = 1` for every non-empty `s`;
`similarity(s, "") = 0` for every `s` whose whitespace-tokenization contains
no empty token (equivalently: `s` is non-empty and neither starts nor ends
with whitespace) — but not for every `s`, see the counterexample; and the
similarity is `0` whenever either term-frequency vector has zero squared
magnitude (the source's guard). -/
theorem similarity_contract :
    (∀ (a b : String) (x : ℝ), IsSimilarity a b x → 0 ≤ x ∧ x ≤ 1) ∧
    (∀ (s : String) (x : ℝ), s ≠ "" → IsSimilarity s s x → x = 1) ∧
    (∀ (s : String) (x : ℝ), "" ∉ simWords s → IsSimilarity s "" x → x = 0) ∧
    (∀ (a b : String) (x : ℝ),
      (sumSq (tfVector (allWords (simWords a) (simWords b)) (simWords a)) = 0 ∨
       sumSq (tfVector (allWords (simWords a) (simWords b)) (simWords b)) = 0) →
      IsSimilarity a b x → x = 0) := by
  refine ⟨?_, ?_, ?_, ?_⟩
  · rintro a b x ⟨hx, hsq⟩
    refine ⟨hx, ?_⟩
    have hle : x ^ 2 ≤ 1 := by
      rw [hsq]
      exact_mod_cast computeSimilaritySq_le_one a b
    exact (pow_le_one_iff_of_nonneg hx (by norm_num)).mp hle
  · rintro s x _ ⟨hx, hsq⟩
    rw [computeSimilaritySq_self s] at hsq
    have hfac : (x - 1) * (x + 1) = 0 := by push_cast at hsq; nlinarith
    rcases mul_eq_zero.mp hfac with hc | hc
    · linarith
    · linarith
  · rintro s x hs ⟨hx, hsq⟩
    rw [computeSimilaritySq_empty_right s hs] at hsq
    have : x ^ 2 = 0 := by push_cast at hsq; linarith
    exact pow_eq_zero_iff (by norm_num) |>.mp this
  · rintro a b x hmag ⟨hx, hsq⟩
    have hz : computeSimilaritySq a b = 0 := by
      simp only [computeSimilaritySq]
      rw [if_pos hmag]
    rw [hz] at hsq
    have : x ^ 2 = 0 := by push_cast at hsq; linarith
    exact pow_eq_zero_iff (by norm_num) |>.mp this

/-- Witness for C8's amended theorem at a concrete input: the tokenization of
`"abc"` has no empty token, and `0` is its similarity against `""`, so the
theorem applies and yields `0 = 0`. -/
theorem similarity_contract_witness :
    ("" ∉ simWords "abc") ∧ (0 : ℝ) = 0 :=
  ⟨by decide, similarity_contract.2.2.1 "abc" 0 (by decide)
    ⟨le_refl 0, by
      rw [computeSimilaritySq_empty_right "abc" (by decide)]
      norm_num⟩⟩

/-! ## Rule-to-field mapping lemmas (claims C6 and C10) -/

theorem foldl_min_le_init (l : List ℚ) : ∀ a : ℚ, l.foldl min a ≤ a := by
  induction l with
  | nil => intro a; simp
  | cons y ys ih =>
    intro a
    calc (y :: ys).foldl min a = ys.foldl min (min a y) := by simp
      _ ≤ min a y := ih (min a y)
      _ ≤ a := min_le_left _ _

theorem foldl_min_le_mem (l : List ℚ) :
    ∀ (a x : ℚ), x ∈ l → l.foldl min a ≤ x := by
  induction l with
  | nil => intro a x hx; simp at hx
  | cons y ys ih =>
    intro a x hx
    rcases List.mem_cons.mp hx with rfl | hx
    · calc (x :: ys).foldl min a = ys.foldl min (min a x) := by simp
        _ ≤ min a x := foldl_min_le_init ys _
        _ ≤ x := min_le_right _ _
    · calc (y :: ys).foldl min a = ys.foldl min (min a y) := by simp
        _ ≤ x := ih _ x hx

theorem foldl_min_choice (l : List ℚ) :
    ∀ a : ℚ, l.foldl min a = a ∨ l.foldl min a ∈ l := by
  induction l with
  | nil => intro a; exact Or.inl rfl
  | cons y ys ih =>
    intro a
    have hstep : (y :: ys).foldl min a = ys.foldl min (min a y) := by simp
    rcases ih (min a y) with h | h
    · rcases min_choice a y with hm | hm
      · exact Or.inl (by rw [hstep, h, hm])
      · exact Or.inr (by rw [hstep, h, hm]; exact List.mem_cons_self _ _)
    · exact Or.inr (by rw [hstep]; exact List.mem_cons_of_mem _ h)

theorem le_foldl_min (l : List ℚ) :
    ∀ (a c : ℚ), c ≤ a → (∀ x ∈ l, c ≤ x) → c ≤ l.foldl min a := by
  induction l with
  | nil => intro a c hca _; simpa using hca
  | cons y ys ih =>
    intro a c hca hall
    have hstep : (y :: ys).foldl min a = ys.foldl min (min a y) := by simp
    rw [hstep]
    exact ih _ c (le_min hca (hall y (List.mem_cons_self _ _)))
      (fun x hx => hall x (List.mem_cons_of_mem _ hx))

/-- The Boolean version of the below-threshold test on a rule sentence. -/
def ruleFailsB (objs : List BSetItem) (r : String) : Bool :=
  decide (maxSimSq r objs < SIMILARITY_THRESHOLD_SQ)

theorem ruleLoop_spec (objs : List BSetItem) :
    ∀ (rules : List String) (acc : List String × ℚ),
      (ruleLoop objs acc rules).1 = acc.1 ++ rules.filter (ruleFailsB objs) ∧
      (ruleLoop objs acc rules).2 =
        ((rules.filter (ruleFailsB objs)).map (fun r => maxSimSq r objs)).foldl min acc.2 := by
  intro rules
  induction rules with
  | nil => intro acc; simp [ruleLoop]
  | cons rule rest ih =>
    intro acc
    by_cases hm : maxSimSq rule objs < SIMILARITY_THRESHOLD_SQ
    · have hb : ruleFailsB objs rule = true := decide_eq_true hm
      have hstep : ruleLoop objs acc (rule :: rest) =
          ruleLoop objs (acc.1 ++ [rule], min acc.2 (maxSimSq rule objs)) rest := by
        simp only [ruleLoop]
        rw [if_pos hm]
      rw [hstep, List.filter_cons_of_pos hb]
      obtain ⟨h1, h2⟩ := ih (acc.1 ++ [rule], min acc.2 (maxSimSq rule objs))
      refine ⟨?_, ?_⟩
      · rw [h1]; simp
      · rw [h2]; simp
    · have hb : ruleFailsB objs rule = false := decide_eq_false hm
      have hstep : ruleLoop objs acc (rule :: rest) = ruleLoop objs acc rest := by
        simp only [ruleLoop]
        rw [if_neg hm]
      rw [hstep, List.filter_cons_of_neg (by simp [hb])]
      exact ih acc

theorem head?_filter_eq_find? {α : Type} (p : α → Bool) :
    ∀ l : List α, (l.filter p).head? = l.find? p := by
  intro l
  induction l with
  | nil => rfl
  | cons x xs ih =>
    cases hp : p x <;> simp [List.filter_cons, hp, List.find?_cons, ih]

/-- C6.  The rule-mapping check FAILs exactly when some kept (normative)
sentence has maximum squared similarity strictly below the squared threshold
`0.65²`; the check never returns WARNING; on failure it reports the first
failing sentence, the (squared) threshold, and the minimum best-match
(squared) similarity among the failing sentences. -/
theorem rule_mapping_spec (text : String) (objs : List BSetItem) :
    ((verifyRuleMappings text objs).status = CheckStatus.FAIL ↔
      ∃ r ∈ extractRuleStatements text, maxSimSq r objs < SIMILARITY_THRESHOLD_SQ) ∧
    ((verifyRuleMappings text objs).status ≠ CheckStatus.FAIL →
      (verifyRuleMappings text objs).status = CheckStatus.PASS) ∧
    ((verifyRuleMappings text objs).status = CheckStatus.FAIL →
      (verifyRuleMappings text objs).failed_assertion =
          (extractRuleStatements text).find? (ruleFailsB objs) ∧
      (verifyRuleMappings text objs).threshold_sq = some SIMILARITY_THRESHOLD_SQ ∧
      ∃ m : ℚ, (verifyRuleMappings text objs).best_match_similarity_sq = some m ∧
        (∃ r ∈ extractRuleStatements text,
          maxSimSq r objs < SIMILARITY_THRESHOLD_SQ ∧ m = maxSimSq r objs) ∧
        (∀ r ∈ extractRuleStatements text,
          maxSimSq r objs < SIMILARITY_THRESHOLD_SQ → m ≤ maxSimSq r objs)) := by
  obtain ⟨h1, h2⟩ := ruleLoop_spec objs (extractRuleStatements text) ([], (1 : ℚ))
  simp only [List.nil_append] at h1
  cases hfr : (extractRuleStatements text).filter (ruleFailsB objs) with
  | nil =>
    have hstat : (verifyRuleMappings text objs).status = CheckStatus.PASS := by
      simp only [verifyRuleMappings, h1, hfr, List.isEmpty_nil, if_true]
    rw [hstat]
    have hnone : ¬ ∃ r ∈ extractRuleStatements text,
        maxSimSq r objs < SIMILARITY_THRESHOLD_SQ := by
      rintro ⟨r, hr, hlt⟩
      have : ruleFailsB objs r = true := decide_eq_true hlt
      have hmem : r ∈ (extractRuleStatements text).filter (ruleFailsB objs) :=
        List.mem_filter.mpr ⟨hr, this⟩
      rw [hfr] at hmem
      simp at hmem
    refine ⟨?_, fun _ => rfl, fun h => absurd h (by decide)⟩
    constructor
    · intro h; exact absurd h (by decide)
    · intro h; exact absurd h hnone
  | cons u us =>
    have hu : u ∈ (extractRuleStatements text).filter (ruleFailsB objs) := by
      rw [hfr]; exact List.mem_cons_self _ _
    obtain ⟨humem, hub⟩ := List.mem_filter.mp hu
    have hult : maxSimSq u objs < SIMILARITY_THRESHOLD_SQ := of_decide_eq_true hub
    have hcheck : verifyRuleMappings text objs =
        { check_type := "rule_to_field_mapping"
          status := CheckStatus.FAIL
          details := toString (u :: us).length ++
            " rule statement(s) did not map to authorized rule fields"
          failed_assertion := (u :: us).head?
          best_match_similarity_sq :=
            some ((((extractRuleStatements text).filter (ruleFailsB objs)).map
                (fun r => maxSimSq r objs)).foldl min 1)
          threshold_sq := some SIMILARITY_THRESHOLD_SQ } := by
      simp only [verifyRuleMappings, h1, h2, hfr, List.isEmpty_cons, Bool.false_eq_true,
        if_false]
    rw [hcheck]
    refine ⟨⟨fun _ => ⟨u, humem, hult⟩, fun _ => rfl⟩, fun h => absurd rfl h, fun _ => ?_⟩
    refine ⟨by rw [← hfr, head?_filter_eq_find?], rfl, ?_⟩
    refine ⟨_, rfl, ?_, ?_⟩
    · -- the reported minimum is attained at some failing sentence
      rcases foldl_min_choice (((extractRuleStatements text).filter (ruleFailsB objs)).map
          (fun r => maxSimSq r objs)) 1 with hch | hch
      · exfalso
        have hle : (((extractRuleStatements text).filter (ruleFailsB objs)).map
            (fun r => maxSimSq r objs)).foldl min 1 ≤ maxSimSq u objs := by
          apply foldl_min_le_mem
          exact List.mem_map_of_mem _ hu
        rw [hch] at hle
        have hth : SIMILARITY_THRESHOLD_SQ < 1 := by
          unfold SIMILARITY_THRESHOLD_SQ
          norm_num
        linarith
      · rcases List.mem_map.mp hch with ⟨r, hrmem, hreq⟩
        obtain ⟨hrrules, hrb⟩ := List.mem_filter.mp hrmem
        exact ⟨r, hrrules, of_decide_eq_true hrb, hreq.symm⟩
    · intro r hr hlt
      apply foldl_min_le_mem
      exact List.mem_map_of_mem _ (List.mem_filter.mpr ⟨hr, decide_eq_true hlt⟩)

/-- Witness for C6 at a concrete input: against an empty authority list, the
normative sentence `"It must rain"` has best squared similarity `0 < 0.65²`,
so the check FAILs. -/
theorem rule_mapping_spec_witness :
    (verifyRuleMappings "It must rain" []).status = CheckStatus.FAIL :=
  (rule_mapping_spec "It must rain" []).1.mpr
    ⟨"It must rain", by decide, by
      show maxSimSq "It must rain" [] < SIMILARITY_THRESHOLD_SQ
      rw [show maxSimSq "It must rain" [] = 0 from rfl]
      unfold SIMILARITY_THRESHOLD_SQ
      norm_num⟩

theorem maxSimSq_of_all_empty (objs : List BSetItem)
    (h : ∀ obj ∈ objs, getAuthorizedRule obj = "") (rule : String) :
    maxSimSq rule objs = 0 := by
  unfold maxSimSq
  induction objs with
  | nil => rfl
  | cons o rest ih =>
    have ho : getAuthorizedRule o = "" := h o (List.mem_cons_self _ _)
    rw [List.foldl_cons]
    have : (if getAuthorizedRule o = "" then (0 : ℚ)
        else max 0 (computeSimilaritySq rule (getAuthorizedRule o))) = 0 := if_pos ho
    rw [this]
    exact ih (fun obj hm => h obj (List.mem_cons_of_mem _ hm))

/-- C10.  When no authorized item has a non-empty rule-of-law / rule /
holding field, every kept normative sentence has maximum squared similarity
`0`, so any text with at least one such sentence FAILs the rule-mapping check
with reported (squared) best-match similarity `0` and the fixed threshold. -/
theorem rule_mapping_no_rules_always_fails (text : String) (objs : List BSetItem)
    (hobjs : ∀ obj ∈ objs, getAuthorizedRule obj = "")
    (htext : extractRuleStatements text ≠ []) :
    (verifyRuleMappings text objs).status = CheckStatus.FAIL ∧
    (verifyRuleMappings text objs).best_match_similarity_sq = some 0 ∧
    (verifyRuleMappings text objs).threshold_sq = some SIMILARITY_THRESHOLD_SQ := by
  have hth : (0 : ℚ) < SIMILARITY_THRESHOLD_SQ := by
    unfold SIMILARITY_THRESHOLD_SQ
    norm_num
  have hall : ∀ r ∈ extractRuleStatements text, ruleFailsB objs r = true := by
    intro r _
    apply decide_eq_true
    rw [maxSimSq_of_all_empty objs hobjs r]
    exact hth
  have hfr : (extractRuleStatements text).filter (ruleFailsB objs) =
      extractRuleStatements text := List.filter_eq_self.mpr hall
  obtain ⟨h1, h2⟩ := ruleLoop_spec objs (extractRuleStatements text) ([], (1 : ℚ))
  simp only [List.nil_append] at h1
  rw [hfr] at h1 h2
  have hne : ¬ (extractRuleStatements text).isEmpty = true := by
    cases hx : extractRuleStatements text with
    | nil => exact absurd hx htext
    | cons a l => simp [hx]
  have hmin : ((extractRuleStatements text).map (fun r => maxSimSq r objs)).foldl min 1 = 0 := by
    have hzero : ∀ x ∈ (extractRuleStatements text).map (fun r => maxSimSq r objs), x = 0 := by
      intro x hx
      rcases List.mem_map.mp hx with ⟨r, _, rfl⟩
      exact maxSimSq_of_all_empty objs hobjs r
    obtain ⟨a, l, hal⟩ : ∃ a l, extractRuleStatements text = a :: l := by
      cases hx : extractRuleStatements text with
      | nil => exact absurd hx htext
      | cons a l => exact ⟨a, l, rfl⟩
    have hmem0 : (0 : ℚ) ∈ (extractRuleStatements text).map (fun r => maxSimSq r objs) := by
      rw [hal, List.map_cons, maxSimSq_of_all_empty objs hobjs a]
      exact List.mem_cons_self _ _
    exact le_antisymm (foldl_min_le_mem _ _ _ hmem0)
      (le_foldl_min _ _ _ zero_le_one (fun x hx => le_of_eq (hzero x hx).symm))
  constructor
  · simp only [verifyRuleMappings, h1, hne, Bool.false_eq_true, if_false]
  · constructor
    · simp only [verifyRuleMappings, h1, h2, hne, Bool.false_eq_true, if_false]
      rw [hmin]
    · simp only [verifyRuleMappings, h1, hne, Bool.false_eq_true, if_false]

/-- Witness for C10 at a concrete input: the empty authority list and the
normative text `"It must rain"`. -/
theorem rule_mapping_no_rules_always_fails_witness :
    (verifyRuleMappings "It must rain" []).best_match_similarity_sq = some 0 :=
  (rule_mapping_no_rules_always_fails "It must rain" []
      (fun obj h => absurd h (List.not_mem_nil _)) (by decide)).2.1

/-! ## Constraint compliance (claim C7) -/

/-- A required-element constraint is unaddressed: it has at least one
significant word (longer than 3 characters) and none of them occurs in the
generated text (case-insensitive substring test).  Propositional mirror of
`elementMissingB`. -/
def ElementMissing (text : String) (c : ConstraintObject) : Prop :=
  significantWords (constraintContentStr c) ≠ [] ∧
  ∀ kw ∈ significantWords (constraintContentStr c), strContains (lowerStr text) kw = false

/-- A required-test constraint is unmentioned: it has at least one
significant word and none of its first three occurs in the generated text.
Propositional mirror of `testMissingB`. -/
def TestMissing (text : String) (c : ConstraintObject) : Prop :=
  significantWords (constraintContentStr c) ≠ [] ∧
  ∀ kw ∈ (significantWords (constraintContentStr c)).take 3,
    strContains (lowerStr text) kw = false

theorem elementMissingB_iff (text : String) (c : ConstraintObject) :
    elementMissingB (lowerStr text) c = true ↔ ElementMissing text c := by
  unfold elementMissingB ElementMissing
  rw [Bool.and_eq_true, Bool.not_eq_true', Bool.not_eq_true', List.any_eq_false,
    List.isEmpty_eq_false]
  constructor
  · rintro ⟨h1, h2⟩
    refine ⟨h2, fun kw hkw => ?_⟩
    have := h1 kw hkw
    cases h : strContains (lowerStr text) kw
    · rfl
    · exact absurd h this
  · rintro ⟨h1, h2⟩
    refine ⟨fun kw hkw => ?_, h1⟩
    rw [h2 kw hkw]
    simp

theorem testMissingB_iff (text : String) (c : ConstraintObject) :
    testMissingB (lowerStr text) c = true ↔ TestMissing text c := by
  unfold testMissingB TestMissing
  rw [Bool.and_eq_true, Bool.not_eq_true', Bool.not_eq_true', List.any_eq_false,
    List.isEmpty_eq_false]
  constructor
  · rintro ⟨h1, h2⟩
    refine ⟨h2, fun kw hkw => ?_⟩
    have := h1 kw hkw
    cases h : strContains (lowerStr text) kw
    · rfl
    · exact absurd h this
  · rintro ⟨h1, h2⟩
    refine ⟨fun kw hkw => ?_, h1⟩
    rw [h2 kw hkw]
    simp

theorem not_elementMissingB_iff (text : String) (c : ConstraintObject) :
    elementMissingB (lowerStr text) c = false ↔ ¬ ElementMissing text c := by
  rw [← elementMissingB_iff]
  cases elementMissingB (lowerStr text) c <;> simp

theorem not_testMissingB_iff (text : String) (c : ConstraintObject) :
    testMissingB (lowerStr text) c = false ↔ ¬ TestMissing text c := by
  rw [← testMissingB_iff]
  cases testMissingB (lowerStr text) c <;> simp

/-- C7.  The constraint-compliance check FAILs exactly when some
required-element constraint has at least one significant word (longer than 3
characters) and none of those words occurs, case-insensitively, in the
generated text, reporting the first such element's content; when every
required element passes, it returns WARNING (never FAIL) exactly when some
required-test constraint has at least one significant word and none of its
first three occurs in the text; and PASS otherwise. -/
theorem constraint_compliance_spec (text : String) (ctx : AuthorizedContext) :
    ((verifyConstraintCompliance text ctx).status = CheckStatus.FAIL ↔
      ∃ c ∈ ctx.constraint_objects.filter (fun c => c.is_element_factor),
        ElementMissing text c) ∧
    ((verifyConstraintCompliance text ctx).status = CheckStatus.FAIL →
      (verifyConstraintCompliance text ctx).missing_element =
        (((ctx.constraint_objects.filter (fun c => c.is_element_factor)).find?
          (elementMissingB (lowerStr text))).map constraintContentStr)) ∧
    ((verifyConstraintCompliance text ctx).status = CheckStatus.WARNING ↔
      (∀ c ∈ ctx.constraint_objects.filter (fun c => c.is_element_factor),
        ¬ ElementMissing text c) ∧
      ∃ c ∈ ctx.constraint_objects.filter (fun c => c.is_test_standard),
        TestMissing text c) ∧
    ((verifyConstraintCompliance text ctx).status = CheckStatus.PASS ↔
      (∀ c ∈ ctx.constraint_objects.filter (fun c => c.is_element_factor),
        ¬ ElementMissing text c) ∧
      ∀ c ∈ ctx.constraint_objects.filter (fun c => c.is_test_standard),
        ¬ TestMissing text c) := by
  cases hfe : (ctx.constraint_objects.filter (fun c => c.is_element_factor)).filter
      (elementMissingB (lowerStr text)) with
  | cons u us =>
    have hu := List.mem_filter.mp (by rw [hfe]; exact List.mem_cons_self u us)
    have humiss : ElementMissing text u := (elementMissingB_iff text u).mp hu.2
    have hcheck : verifyConstraintCompliance text ctx =
        { check_type := "constraint_compliance"
          status := CheckStatus.FAIL
          details := toString (u :: us).length ++ " required element(s) not addressed"
          missing_element := ((u :: us).map constraintContentStr).head? } := by
      simp only [verifyConstraintCompliance, hfe, List.map_cons, List.isEmpty_cons,
        Bool.not_false, if_true]
      simp
    have hstat : (verifyConstraintCompliance text ctx).status = CheckStatus.FAIL := by
      rw [hcheck]
    refine ⟨?_, fun _ => ?_, ?_, ?_⟩
    · rw [hstat]
      exact ⟨fun _ => ⟨u, hu.1, humiss⟩, fun _ => rfl⟩
    · rw [hcheck]
      show ((u :: us).map constraintContentStr).head? = _
      rw [← hfe, List.head?_map, head?_filter_eq_find?]
    · rw [hstat]
      constructor
      · intro h; exact absurd h (by decide)
      · rintro ⟨hall, _⟩
        exact absurd humiss (hall u hu.1)
    · rw [hstat]
      constructor
      · intro h; exact absurd h (by decide)
      · rintro ⟨hall, _⟩
        exact absurd humiss (hall u hu.1)
  | nil =>
    have hallel : ∀ c ∈ ctx.constraint_objects.filter (fun c => c.is_element_factor),
        ¬ ElementMissing text c := by
      intro c hc
      rw [← not_elementMissingB_iff]
      have hnot := List.filter_eq_nil_iff.mp hfe c hc
      cases h : elementMissingB (lowerStr text) c
      · rfl
      · exact absurd h hnot
    have hnoel : ¬ ∃ c ∈ ctx.constraint_objects.filter (fun c => c.is_element_factor),
        ElementMissing text c := by
      rintro ⟨c, hc, hmiss⟩
      exact hallel c hc hmiss
    cases hft : (ctx.constraint_objects.filter (fun c => c.is_test_standard)).filter
        (testMissingB (lowerStr text)) with
    | cons v vs =>
      have hv := List.mem_filter.mp (by rw [hft]; exact List.mem_cons_self v vs)
      have hvmiss : TestMissing text v := (testMissingB_iff text v).mp hv.2
      have hcheck : verifyConstraintCompliance text ctx =
          { check_type := "constraint_compliance"
            status := CheckStatus.WARNING
            details := toString (v :: vs).length ++
              " required test(s) may not be fully addressed" } := by
        simp only [verifyConstraintCompliance, hfe, hft, List.map_nil, List.map_cons,
          List.isEmpty_nil, List.isEmpty_cons, Bool.not_false, Bool.not_true,
          Bool.false_eq_true, if_false, if_true]
        simp
      have hstat : (verifyConstraintCompliance text ctx).status = CheckStatus.WARNING := by
        rw [hcheck]
      refine ⟨?_, fun h => ?_, ?_, ?_⟩
      · rw [hstat]
        exact ⟨fun h => absurd h (by decide), fun he => absurd he hnoel⟩
      · rw [hstat] at h
        exact absurd h (by decide)
      · rw [hstat]
        exact ⟨fun _ => ⟨hallel, v, hv.1, hvmiss⟩, fun _ => rfl⟩
      · rw [hstat]
        constructor
        · intro h; exact absurd h (by decide)
        · rintro ⟨_, hall⟩
          exact absurd hvmiss (hall v hv.1)
    | nil =>
      have halltest : ∀ c ∈ ctx.constraint_objects.filter (fun c => c.is_test_standard),
          ¬ TestMissing text c := by
        intro c hc
        rw [← not_testMissingB_iff]
        have hnot := List.filter_eq_nil_iff.mp hft c hc
        cases h : testMissingB (lowerStr text) c
        · rfl
        · exact absurd h hnot
      have hcheck : verifyConstraintCompliance text ctx =
          { check_type := "constraint_compliance"
            status := CheckStatus.PASS
            details := "All required elements and tests appear to be addressed" } := by
        simp only [verifyConstraintCompliance, hfe, hft, List.map_nil, List.isEmpty_nil,
          Bool.not_true, Bool.false_eq_true, if_false]
      have hstat : (verifyConstraintCompliance text ctx).status = CheckStatus.PASS := by
        rw [hcheck]
      refine ⟨?_, fun h => ?_, ?_, ?_⟩
      · rw [hstat]
        exact ⟨fun h => absurd h (by decide), fun he => absurd he hnoel⟩
      · rw [hstat] at h
        exact absurd h (by decide)
      · rw [hstat]
        constructor
        · intro h; exact absurd h (by decide)
        · rintro ⟨_, v, hv, hmiss⟩
          exact absurd hmiss (halltest v hv)
      · rw [hstat]
        exact ⟨fun _ => ⟨hallel, halltest⟩, fun _ => rfl⟩

/-- A required-element constraint whose significant words do not occur in the
text `"hello"` (concrete input for the element-missing scenario). -/
def elementOnlyConstraint : ConstraintObject :=
  { is_element_factor := true
    content := ConstraintContent.str "jurisdiction requirement" }

/-- A context holding `elementOnlyConstraint` and nothing else. -/
def elementOnlyContext : AuthorizedContext :=
  { constraint_objects := [elementOnlyConstraint] }

/-- Witness for C7 at a concrete input: a required element whose significant
words (`jurisdiction`, `requirement`) are absent from the text `"hello"`
makes the check FAIL. -/
theorem constraint_compliance_spec_witness :
    (verifyConstraintCompliance "hello" elementOnlyContext).status = CheckStatus.FAIL :=
  (constraint_compliance_spec "hello" elementOnlyContext).1.mpr
    ⟨elementOnlyConstraint, by decide, by decide, by decide⟩

end Goldilex
